import Mathlib

/-!
Verification model of the vagano socket server (src/server.js).

The server is an in-memory presence / message relay.  Its whole mutable state
consists of four JavaScript Maps declared at the top of server.js:

* onlineUsers          : Map<userId, Set<socketId>>
* typingUsers          : Map<key, { timeout, userName }>  with key = conversationId + ":" + userId
* locationRoomUsers    : Map<roomName, Map<userId, { socketId, userName }>>
* socketLocationRooms  : Map<socketId, Set<roomName>>

We embed JS Maps as insertion-ordered association lists (JS Map preserves
insertion order, updates in place, appends new keys at the end) and JS Sets as
insertion-ordered duplicate-free lists.  setTimeout timers are made explicit:
the state carries the list of currently live (scheduled, not yet fired, not
yet cancelled) timers together with a fresh-id counter; clearTimeout removes a
timer from the live list, and a separate `fireTimer` transition models the
expiry callback running.  Event payload fields that the code reads are
embedded as `Option String` (none = the field is absent / undefined).
-/

namespace Vagano

/-- Model of JS Map lookup: value of the first (unique, for genuine Maps)
entry with the given key. -/
def mapGet [DecidableEq α] (m : List (α × β)) (k : α) : Option β :=
  match m with
  | [] => none
  | (k1, v1) :: rest => if k = k1 then some v1 else mapGet rest k

/-- Model of JS Map.set: update the existing entry in place, or append a new
entry at the end (JS Maps keep insertion order). -/
def mapSet [DecidableEq α] (m : List (α × β)) (k : α) (v : β) : List (α × β) :=
  match m with
  | [] => [(k, v)]
  | (k1, v1) :: rest => if k = k1 then (k, v) :: rest else (k1, v1) :: mapSet rest k v

/-- Model of JS Map.delete: remove the (for a genuine Map unique) entry with
the given key. -/
def mapDelete [DecidableEq α] (m : List (α × β)) (k : α) : List (α × β) :=
  match m with
  | [] => []
  | (k1, v1) :: rest => if k1 = k then mapDelete rest k else (k1, v1) :: mapDelete rest k

/-- Model of JS Set.add: no-op when the element is present, append otherwise. -/
def setAdd [DecidableEq α] (s : List α) (a : α) : List α :=
  if a ∈ s then s else s ++ [a]

/-- Model of JS Set.delete. -/
def setDelete [DecidableEq α] (s : List α) (a : α) : List α :=
  match s with
  | [] => []
  | b :: rest => if b = a then setDelete rest a else b :: setDelete rest a

/-- JS template-literal interpolation of a possibly-undefined string value:
undefined interpolates to the text "undefined". -/
def interp : Option String → String
  | none => "undefined"
  | some s => s

/-- JS truthiness of a string-or-undefined value: undefined and the empty
string are falsy. -/
def truthyS : Option String → Bool
  | none => false
  | some s => s ≠ ""

/-- Model of JS String.prototype.endsWith, expressed on the character list. -/
def jsEndsWith (s sfx : String) : Bool :=
  sfx.data.isSuffixOf s.data

/-- Model of JS String.prototype.split(":") on the character list. -/
def splitColon : List Char → List (List Char)
  | [] => [[]]
  | c :: cs =>
    let r := splitColon cs
    if c = ':' then [] :: r
    else
      match r with
      | [] => [[c]]
      | h :: t => (c :: h) :: t

/-- Model of JS key.split(":")[0]: the segment before the first colon. -/
def firstSegment (s : String) : String :=
  ⟨(splitColon s.data).headD []⟩

/-- Model of JS String.prototype.replace(pat, "") which removes only the
first occurrence of the pattern. -/
def removeFirstOcc (pat : List Char) : List Char → List Char
  | [] => []
  | c :: cs =>
    if pat.isPrefixOf (c :: cs) then (c :: cs).drop pat.length
    else c :: removeFirstOcc pat cs

/-- JS room.replace("location-chat:", "") as used by the disconnect handler. -/
def jsReplace (s pat : String) : String :=
  ⟨removeFirstOcc pat.data s.data⟩

/-- Model of JS String.prototype.toUpperCase (ASCII letters, as produced by
country codes). -/
def jsToUpper (s : String) : String :=
  ⟨s.data.map Char.toUpper⟩

/-- Entry of the typingUsers map: the stored setTimeout handle (as a timer
id) and the userName recorded with it (server.js lines 248-251). -/
structure TypingEntry where
  timeout : Nat
  userName : Option String
deriving DecidableEq, Repr

/-- A live (scheduled, not yet fired or cancelled) typing-expiry timer.  The
setTimeout callback in the 'typing' handler closes over the key and over
data.conversationId / data.userId (server.js lines 239-245). -/
structure Timer where
  id : Nat
  key : String
  conversationId : String
  userId : String
deriving DecidableEq, Repr

/-- Entry of a location room's member map: { socketId, userName }
(server.js line 122). -/
structure LocEntry where
  socketId : String
  userName : String
deriving DecidableEq, Repr

/-- The complete mutable state of the server process. -/
structure ServerState where
  onlineUsers : List (String × List String)
  typingUsers : List (String × TypingEntry)
  locationRoomUsers : List (String × List (Option String × LocEntry))
  socketLocationRooms : List (String × List String)
  adapterRooms : List (String × List String)
  timers : List Timer
  nextTimerId : Nat
deriving DecidableEq, Repr

/-- The state at process start: all four maps empty. -/
def initState : ServerState :=
  { onlineUsers := [], typingUsers := [], locationRoomUsers := [],
    socketLocationRooms := [], adapterRooms := [], timers := [], nextTimerId := 0 }

/-- Payload of the 'typing' / 'stopTyping' events:
{ userId, conversationId, userName }. -/
structure TypingData where
  userId : Option String
  conversationId : Option String
  userName : Option String
deriving DecidableEq, Repr

/-- Payload of the 'send-message' event; the handler reads conversationId,
message, recipientId, isGroupConversation and participantIds. -/
structure MessageData where
  conversationId : Option String
  message : Option String
  recipientId : Option String
  isGroupConversation : Bool
  participantIds : Option (List String)
deriving DecidableEq, Repr

/-- Payload of the 'conversation-update' event; only the status field is
inspected. -/
structure ConvUpdateData where
  status : Option String
deriving DecidableEq, Repr

/-- Payload of the 'join-location-chat' event:
{ countryCode, userId, userName }. -/
structure LocJoinData where
  countryCode : Option String
  userId : Option String
  userName : Option String
deriving DecidableEq, Repr

/-- Addressing of an outbound emit: io.emit, io.to(room).emit,
socket.to(room).emit (room minus the sender) or socket.emit. -/
inductive Target where
  | all : Target
  | room (name : String) : Target
  | roomExceptSender (name : String) (senderSocket : String) : Target
  | selfSock (socketId : String) : Target
deriving DecidableEq, Repr

/-- The payload shapes the server actually sends. -/
inductive Payload where
  | userId (u : String) : Payload
  | stopTyping (userId : Option String) (conversationId : Option String) : Payload
  | typingData (d : TypingData) : Payload
  | messageData (d : MessageData) : Payload
  | messageBody (m : Option String) : Payload
  | presence (countryCode : String) (onlineCount : Nat)
      (users : List (Option String × String)) : Payload
  | convUpdate (d : ConvUpdateData) : Payload
  | userList (us : List String) : Payload
  | locTyping (userId : Option String) (userName : Option String)
      (countryCode : Option String) : Payload
  | locStopTyping (userId : Option String) (countryCode : Option String) : Payload
deriving DecidableEq, Repr

/-- One outbound event emission. -/
structure Emit where
  target : Target
  event : String
  payload : Payload
deriving DecidableEq, Repr

/-- Transport primitive socket.join(room). -/
def joinRoom (rooms : List (String × List String)) (socketId room : String) :
    List (String × List String) :=
  mapSet rooms socketId (setAdd ((mapGet rooms socketId).getD []) room)

/-- Transport primitive socket.leave(room). -/
def leaveRoom (rooms : List (String × List String)) (socketId room : String) :
    List (String × List String) :=
  mapSet rooms socketId (setDelete ((mapGet rooms socketId).getD []) room)

/-- The typing key built by the server: conversationId + ":" + userId
(template literal, server.js line 93 and line 233). -/
def typingKey (conversationId userId : Option String) : String :=
  interp conversationId ++ ":" ++ interp userId

/-- clearTypingTimeout (server.js lines 92-98): if an entry exists for the
key, clearTimeout its stored handle and delete the entry. -/
def clearTypingTimeout (st : ServerState) (conversationId userId : Option String) :
    ServerState :=
  let key := typingKey conversationId userId
  match mapGet st.typingUsers key with
  | some entry =>
    { st with timers := st.timers.filter (fun t => t.id ≠ entry.timeout),
              typingUsers := mapDelete st.typingUsers key }
  | none => st

/-- The users list of a location presence snapshot
(server.js lines 103-106 and 314-317). -/
def presenceUsers (st : ServerState) (room : String) : List (Option String × String) :=
  match mapGet st.locationRoomUsers room with
  | none => []
  | some roomUsers => roomUsers.map (fun p => (p.1, p.2.userName))

/-- The 'location-room-presence' payload computed from the current state. -/
def presencePayload (st : ServerState) (room countryCode : String) : Payload :=
  Payload.presence countryCode (presenceUsers st room).length (presenceUsers st room)

/-- broadcastLocationRoomPresence (server.js lines 101-115). -/
def broadcastPresence (st : ServerState) (room countryCode : String) : Emit :=
  ⟨Target.room room, "location-room-presence", presencePayload st room countryCode⟩

/-- addUserToLocationRoom (server.js lines 118-129). -/
def addUserToLocationRoom (st : ServerState) (room : String) (userId : Option String)
    (socketId userName : String) : ServerState :=
  let roomUsers := (mapGet st.locationRoomUsers room).getD []
  let st := { st with
    locationRoomUsers :=
      mapSet st.locationRoomUsers room (mapSet roomUsers userId ⟨socketId, userName⟩) }
  let socketRooms := (mapGet st.socketLocationRooms socketId).getD []
  { st with
    socketLocationRooms := mapSet st.socketLocationRooms socketId (setAdd socketRooms room) }

/-- First block of removeUserFromLocationRoom (server.js lines 133-139):
delete the user from the room's member map, dropping the room entirely when
it became empty.  Only locationRoomUsers is read or written. -/
def removeUserLocPart (loc : List (String × List (Option String × LocEntry)))
    (room : String) (userId : Option String) :
    List (String × List (Option String × LocEntry)) :=
  match mapGet loc room with
  | none => loc
  | some roomUsers =>
    let roomUsers1 := mapDelete roomUsers userId
    if roomUsers1.length = 0 then mapDelete loc room else mapSet loc room roomUsers1

/-- Second block of removeUserFromLocationRoom (server.js lines 142-148):
remove the room from the socket's tracked set, dropping the socket entry
when it became empty.  Only socketLocationRooms is read or written. -/
def removeUserSockPart (tbl : List (String × List String)) (socketId room : String) :
    List (String × List String) :=
  match mapGet tbl socketId with
  | none => tbl
  | some socketRooms =>
    let socketRooms1 := setDelete socketRooms room
    if socketRooms1.length = 0 then mapDelete tbl socketId
    else mapSet tbl socketId socketRooms1

/-- removeUserFromLocationRoom (server.js lines 132-149): its two blocks
touch disjoint maps. -/
def removeUserFromLocationRoom (st : ServerState) (room : String) (userId : Option String)
    (socketId : String) : ServerState :=
  { st with
    locationRoomUsers := removeUserLocPart st.locationRoomUsers room userId,
    socketLocationRooms := removeUserSockPart st.socketLocationRooms socketId room }

/-- Connection registration (server.js lines 156-169): when the handshake
carries a truthy userId, add the socket to the user's set, broadcast
'userOnline' unconditionally, and join the per-user mailbox room. -/
def handleConnect (st : ServerState) (socketId : String) (auth : Option String) :
    ServerState × List Emit :=
  if truthyS auth then
    let u := interp auth
    let sockets := (mapGet st.onlineUsers u).getD []
    let st := { st with onlineUsers := mapSet st.onlineUsers u (setAdd sockets socketId) }
    let st := { st with adapterRooms := joinRoom st.adapterRooms socketId ("user:" ++ u) }
    (st, [⟨Target.all, "userOnline", Payload.userId u⟩])
  else (st, [])

/-- 'getOnlineUsers' handler (server.js lines 172-175). -/
def handleGetOnlineUsers (st : ServerState) (socketId : String) :
    ServerState × List Emit :=
  (st, [⟨Target.selfSock socketId, "onlineUsers", Payload.userList (st.onlineUsers.map Prod.fst)⟩])

/-- 'join-conversation' handler (server.js lines 178-181). -/
def handleJoinConversation (st : ServerState) (socketId : String)
    (conversationId : Option String) : ServerState × List Emit :=
  ({ st with adapterRooms :=
      joinRoom st.adapterRooms socketId ("conversation:" ++ interp conversationId) }, [])

/-- 'leave-conversation' handler (server.js lines 183-195): leaves the room;
when the connect-time identity is truthy it clears the typing entry and
emits 'userStopTyping' to the conversation room unconditionally. -/
def handleLeaveConversation (st : ServerState) (socketId : String) (auth : Option String)
    (conversationId : Option String) : ServerState × List Emit :=
  let st := { st with
    adapterRooms :=
      leaveRoom st.adapterRooms socketId ("conversation:" ++ interp conversationId) }
  if truthyS auth then
    let st := clearTypingTimeout st conversationId auth
    (st, [⟨Target.room ("conversation:" ++ interp conversationId), "userStopTyping",
           Payload.stopTyping auth conversationId⟩])
  else (st, [])

/-- 'send-message' handler (server.js lines 197-227).  Note: the handler
performs no validation of data.conversationId or data.message. -/
def handleSendMessage (st : ServerState) (_socketId : String) (auth : Option String)
    (data : MessageData) : ServerState × List Emit :=
  let convRoom := "conversation:" ++ interp data.conversationId
  let st1 := if truthyS auth then clearTypingTimeout st data.conversationId auth else st
  let es0 :=
    if truthyS auth then
      [⟨Target.room convRoom, "userStopTyping", Payload.stopTyping auth data.conversationId⟩]
    else []
  let es1 := [⟨Target.room convRoom, "message:" ++ interp data.conversationId,
              Payload.messageBody data.message⟩,
              ⟨Target.all, "newMessage", Payload.messageData data⟩]
  let es2 :=
    if truthyS data.recipientId then
      [⟨Target.room ("user:" ++ interp data.recipientId),
        "message:user:" ++ interp data.recipientId, Payload.messageData data⟩]
    else []
  let es3 :=
    if data.isGroupConversation then
      match data.participantIds with
      | some pids =>
        (pids.filter (fun pid => auth ≠ some pid)).map (fun pid =>
          ⟨Target.room ("user:" ++ pid), "message:user:" ++ pid, Payload.messageData data⟩)
      | none => []
    else []
  (st1, es0 ++ es1 ++ es2 ++ es3)

/-- 'typing' handler (server.js lines 230-255): drop when userId or
conversationId is falsy; otherwise cancel any existing timer for the key,
schedule a fresh 3000 ms expiry timer, record the entry, and emit
'userTyping' to the conversation room excluding the sender. -/
def handleTyping (st : ServerState) (socketId : String) (data : TypingData) :
    ServerState × List Emit :=
  if truthyS data.userId && truthyS data.conversationId then
    let key := typingKey data.conversationId data.userId
    let st := clearTypingTimeout st data.conversationId data.userId
    let timer : Timer :=
      ⟨st.nextTimerId, key, interp data.conversationId, interp data.userId⟩
    let st := { st with
      timers := st.timers ++ [timer],
      nextTimerId := st.nextTimerId + 1,
      typingUsers := mapSet st.typingUsers key ⟨timer.id, data.userName⟩ }
    (st, [⟨Target.roomExceptSender ("conversation:" ++ interp data.conversationId) socketId,
           "userTyping", Payload.typingData data⟩])
  else (st, [])

/-- The setTimeout callback scheduled by the 'typing' handler (server.js
lines 239-245) running for a live timer: delete the entry and emit
'userStopTyping' to the conversation room.  A cancelled or already-fired
timer is no longer in the live list, so firing it is a no-op. -/
def fireTimer (st : ServerState) (tid : Nat) : ServerState × List Emit :=
  match st.timers.find? (fun t => t.id = tid) with
  | none => (st, [])
  | some t =>
    ({ st with timers := st.timers.filter (fun t1 => t1.id ≠ tid),
               typingUsers := mapDelete st.typingUsers t.key },
     [⟨Target.room ("conversation:" ++ t.conversationId), "userStopTyping",
       Payload.stopTyping (some t.userId) (some t.conversationId)⟩])

/-- 'stopTyping' handler (server.js lines 257-262): drop when userId or
conversationId is falsy; otherwise clear the typing entry and emit
'userStopTyping' (pass-through data) to the room excluding the sender,
unconditionally. -/
def handleStopTyping (st : ServerState) (socketId : String) (data : TypingData) :
    ServerState × List Emit :=
  if truthyS data.userId && truthyS data.conversationId then
    let st := clearTypingTimeout st data.conversationId data.userId
    (st, [⟨Target.roomExceptSender ("conversation:" ++ interp data.conversationId) socketId,
           "userStopTyping", Payload.typingData data⟩])
  else (st, [])

/-- 'conversation-update' handler (server.js lines 265-268): always a global
broadcast; event name chosen by data.status === 'accepted'. -/
def handleConversationUpdate (st : ServerState) (data : ConvUpdateData) :
    ServerState × List Emit :=
  (st, [⟨Target.all,
         if data.status = some "accepted" then "contactRequestAccepted"
         else "contactRequestRejected",
         Payload.convUpdate data⟩])

/-- 'join-location-chat' handler (server.js lines 271-288). -/
def handleJoinLocationChat (st : ServerState) (socketId : String) (d : LocJoinData) :
    ServerState × List Emit :=
  if truthyS d.countryCode then
    let code := jsToUpper (interp d.countryCode)
    let room := "location-chat:" ++ code
    let st := { st with adapterRooms := joinRoom st.adapterRooms socketId room }
    let displayName := if truthyS d.userName then interp d.userName else "Anonymous"
    let st := addUserToLocationRoom st room d.userId socketId displayName
    (st, [broadcastPresence st room code])
  else (st, [])

/-- 'leave-location-chat' handler (server.js lines 290-305). -/
def handleLeaveLocationChat (st : ServerState) (socketId : String)
    (countryCode userId : Option String) : ServerState × List Emit :=
  if truthyS countryCode then
    let code := jsToUpper (interp countryCode)
    let room := "location-chat:" ++ code
    let st := { st with adapterRooms := leaveRoom st.adapterRooms socketId room }
    let st := removeUserFromLocationRoom st room userId socketId
    (st, [broadcastPresence st room code])
  else (st, [])

/-- 'get-location-room-users' handler (server.js lines 308-324): reply to
the requesting socket only, without mutating state. -/
def handleGetLocationRoomUsers (st : ServerState) (socketId : String)
    (countryCode : Option String) : ServerState × List Emit :=
  if truthyS countryCode then
    let code := jsToUpper (interp countryCode)
    let room := "location-chat:" ++ code
    (st, [⟨Target.selfSock socketId, "location-room-presence", presencePayload st room code⟩])
  else (st, [])

/-- 'send-location-message' handler (server.js lines 326-350). -/
def handleSendLocationMessage (st : ServerState)
    (countryCode message : Option String) : ServerState × List Emit :=
  if truthyS countryCode && truthyS message then
    let room := "location-chat:" ++ jsToUpper (interp countryCode)
    (st, [⟨Target.room room, "location-message", Payload.messageBody message⟩])
  else (st, [])

/-- 'location-chat-typing' handler (server.js lines 352-360). -/
def handleLocationChatTyping (st : ServerState) (socketId : String)
    (countryCode userId userName : Option String) : ServerState × List Emit :=
  if truthyS countryCode && truthyS userId then
    let room := "location-chat:" ++ jsToUpper (interp countryCode)
    (st, [⟨Target.roomExceptSender room socketId, "location-user-typing",
           Payload.locTyping userId userName countryCode⟩])
  else (st, [])

/-- 'location-chat-stop-typing' handler (server.js lines 362-369). -/
def handleLocationChatStopTyping (st : ServerState) (socketId : String)
    (countryCode userId : Option String) : ServerState × List Emit :=
  if truthyS countryCode && truthyS userId then
    let room := "location-chat:" ++ jsToUpper (interp countryCode)
    (st, [⟨Target.roomExceptSender room socketId, "location-user-stop-typing",
           Payload.locStopTyping userId countryCode⟩])
  else (st, [])

/-- One iteration of the disconnect handler's typing-indicator sweep
(server.js lines 387-399): for an entry whose key ends in ":" + userId,
clearTimeout its handle, delete it, and emit 'userStopTyping' with the
conversation id read as key.split(":")[0]. -/
def typingCleanupStep (u : String) (acc : ServerState × List Emit)
    (p : String × TypingEntry) : ServerState × List Emit :=
  if jsEndsWith p.1 (":" ++ u) then
    ({ acc.1 with
        timers := acc.1.timers.filter (fun t => t.id ≠ p.2.timeout),
        typingUsers := mapDelete acc.1.typingUsers p.1 },
     acc.2 ++ [⟨Target.room ("conversation:" ++ firstSegment p.1), "userStopTyping",
                Payload.stopTyping (some u) (some (firstSegment p.1))⟩])
  else acc

/-- The disconnect handler's full typing sweep over typingUsers.entries(). -/
def disconnectTypingCleanup (st : ServerState) (u : String) : ServerState × List Emit :=
  st.typingUsers.foldl (typingCleanupStep u) (st, [])

/-- One iteration of the disconnect handler's location-room sweep
(server.js lines 407-419): delete the connect-time userId from the room's
member map; drop the room when it became empty, otherwise broadcast the
updated presence snapshot. -/
def locationCleanupStep (u : String) (acc : ServerState × List Emit)
    (room : String) : ServerState × List Emit :=
  match mapGet acc.1.locationRoomUsers room with
  | none => acc
  | some roomUsers =>
    let roomUsers1 := mapDelete roomUsers (some u)
    if roomUsers1.length = 0 then
      ({ acc.1 with locationRoomUsers := mapDelete acc.1.locationRoomUsers room }, acc.2)
    else
      let st1 := { acc.1 with locationRoomUsers := mapSet acc.1.locationRoomUsers room roomUsers1 }
      (st1, acc.2 ++ [broadcastPresence st1 room (jsReplace room "location-chat:")])

/-- The disconnect handler's location cleanup (server.js lines 404-421),
which runs only when BOTH socketLocationRooms has the socket AND the
connect-time identity is truthy. -/
def disconnectLocationCleanup (st : ServerState) (socketId u : String) :
    ServerState × List Emit :=
  match mapGet st.socketLocationRooms socketId with
  | none => (st, [])
  | some socketRooms =>
    let r := socketRooms.foldl (locationCleanupStep u) (st, [])
    ({ r.1 with socketLocationRooms := mapDelete r.1.socketLocationRooms socketId }, r.2)

/-- Registry section of the disconnect handler (server.js lines 376-402):
drop the socket from the user's set; when it was the last one, delete the
user, broadcast 'userOffline' and sweep the typing entries. -/
def disconnectRegistryPart (st : ServerState) (socketId u : String) :
    ServerState × List Emit :=
  match mapGet st.onlineUsers u with
  | none => (st, [])
  | some sockets =>
    let sockets1 := setDelete sockets socketId
    if sockets1.length = 0 then
      let stA := { st with onlineUsers := mapDelete st.onlineUsers u }
      let r := disconnectTypingCleanup stA u
      (r.1, ⟨Target.all, "userOffline", Payload.userId u⟩ :: r.2)
    else
      ({ st with onlineUsers := mapSet st.onlineUsers u sockets1 }, [])

/-- 'disconnect' handler (server.js lines 372-422).  Both cleanup sections
are guarded by the connect-time identity being truthy.  The final
adapterRooms deletion models the transport layer removing the dead socket
from all of its rooms. -/
def handleDisconnect (st : ServerState) (socketId : String) (auth : Option String) :
    ServerState × List Emit :=
  if truthyS auth then
    let r1 := disconnectRegistryPart st socketId (interp auth)
    let r2 := disconnectLocationCleanup r1.1 socketId (interp auth)
    ({ r2.1 with adapterRooms := mapDelete r2.1.adapterRooms socketId }, r1.2 ++ r2.2)
  else ({ st with adapterRooms := mapDelete st.adapterRooms socketId }, [])

/-- Every inbound trigger the server reacts to, including a typing timer
expiring.  The auth argument of a socket's events is its connect-time
handshake identity. -/
inductive Action where
  | connect (socketId : String) (auth : Option String) : Action
  | getOnlineUsers (socketId : String) : Action
  | joinConversation (socketId : String) (conversationId : Option String) : Action
  | leaveConversation (socketId : String) (auth : Option String)
      (conversationId : Option String) : Action
  | sendMessage (socketId : String) (auth : Option String) (data : MessageData) : Action
  | typing (socketId : String) (data : TypingData) : Action
  | stopTyping (socketId : String) (data : TypingData) : Action
  | conversationUpdate (data : ConvUpdateData) : Action
  | joinLocationChat (socketId : String) (d : LocJoinData) : Action
  | leaveLocationChat (socketId : String) (countryCode userId : Option String) : Action
  | getLocationRoomUsers (socketId : String) (countryCode : Option String) : Action
  | sendLocationMessage (countryCode message : Option String) : Action
  | locationChatTyping (socketId : String)
      (countryCode userId userName : Option String) : Action
  | locationChatStopTyping (socketId : String) (countryCode userId : Option String) : Action
  | disconnect (socketId : String) (auth : Option String) : Action
  | timerFire (tid : Nat) : Action
deriving DecidableEq, Repr

/-- Dispatch of one inbound trigger. -/
def step (st : ServerState) : Action → ServerState × List Emit
  | Action.connect s a => handleConnect st s a
  | Action.getOnlineUsers s => handleGetOnlineUsers st s
  | Action.joinConversation s c => handleJoinConversation st s c
  | Action.leaveConversation s a c => handleLeaveConversation st s a c
  | Action.sendMessage s a d => handleSendMessage st s a d
  | Action.typing s d => handleTyping st s d
  | Action.stopTyping s d => handleStopTyping st s d
  | Action.conversationUpdate d => handleConversationUpdate st d
  | Action.joinLocationChat s d => handleJoinLocationChat st s d
  | Action.leaveLocationChat s c u => handleLeaveLocationChat st s c u
  | Action.getLocationRoomUsers s c => handleGetLocationRoomUsers st s c
  | Action.sendLocationMessage c m => handleSendLocationMessage st c m
  | Action.locationChatTyping s c u n => handleLocationChatTyping st s c u n
  | Action.locationChatStopTyping s c u => handleLocationChatStopTyping st s c u
  | Action.disconnect s a => handleDisconnect st s a
  | Action.timerFire tid => fireTimer st tid

/-- Run a sequence of inbound triggers, concatenating the emitted events. -/
def run (st : ServerState) : List Action → ServerState × List Emit
  | [] => (st, [])
  | a :: rest =>
    let r1 := step st a
    let r2 := run r1.1 rest
    (r2.1, r1.2 ++ r2.2)

/-- A state the server can actually be in after some event history. -/
def Reachable (st : ServerState) : Prop :=
  ∃ acts : List Action, (run initState acts).1 = st

/-- Whether a user identity currently has a non-empty session set. -/
def userOnlineNow (st : ServerState) (u : String) : Bool :=
  !((mapGet st.onlineUsers u).getD []).isEmpty

/-- Number of emissions of a given user-status event for a given user. -/
def countUserEvent (tr : List Emit) (ev u : String) : Nat :=
  (tr.filter (fun e => e.event = ev && e.payload = Payload.userId u)).length

/-- Number of zero-to-non-zero transitions of u's session set along a run. -/
def onlineTransitions (u : String) : ServerState → List Action → Nat
  | _, [] => 0
  | st, a :: rest =>
    let st1 := (step st a).1
    (if !userOnlineNow st u && userOnlineNow st1 u then 1 else 0) +
      onlineTransitions u st1 rest

/-- Number of non-zero-to-zero transitions of u's session set along a run. -/
def offlineTransitions (u : String) : ServerState → List Action → Nat
  | _, [] => 0
  | st, a :: rest =>
    let st1 := (step st a).1
    (if userOnlineNow st u && !userOnlineNow st1 u then 1 else 0) +
      offlineTransitions u st1 rest

/-- Whether an action is a connect carrying exactly this identity. -/
def connectPred (u : String) : Action → Bool
  | Action.connect _ auth => auth = some u
  | _ => false

/-- Number of connect events carrying a given identity. -/
def countConnectsOf (u : String) (acts : List Action) : Nat :=
  (acts.filter (connectPred u)).length

/-- The live (scheduled, not cancelled, not fired) timers for a typing key. -/
def liveTimersFor (st : ServerState) (key : String) : List Timer :=
  st.timers.filter (fun t => t.key = key)

/-- Registry invariant: a user entry present in onlineUsers always holds a
non-empty socket set. -/
def RegInv (st : ServerState) : Prop :=
  ∀ u s, mapGet st.onlineUsers u = some s → s ≠ []

/-- Typing-tracker invariant: every live timer is the one referenced by the
typingUsers entry of its key, timer ids are pairwise distinct and below the
fresh-id counter, and typingUsers has no duplicate keys. -/
def TypingInv (st : ServerState) : Prop :=
  (∀ t ∈ st.timers, ∃ e, mapGet st.typingUsers t.key = some e ∧ e.timeout = t.id) ∧
  (st.timers.map Timer.id).Nodup ∧
  (∀ t ∈ st.timers, t.id < st.nextTimerId) ∧
  (st.typingUsers.map Prod.fst).Nodup

/-! ### Association-list lemmas -/

section MapLemmas

variable {α : Type _} {β : Type _} [DecidableEq α]

theorem mapGet_mapSet_self (m : List (α × β)) (k : α) (v : β) :
    mapGet (mapSet m k v) k = some v := by
  induction m with
  | nil => simp [mapGet, mapSet]
  | cons p rest ih =>
    obtain ⟨k1, v1⟩ := p
    by_cases h : k = k1 <;> simp [mapGet, mapSet, h, ih]

theorem mapGet_mapSet_ne (m : List (α × β)) {k k1 : α} (v : β) (h : k1 ≠ k) :
    mapGet (mapSet m k v) k1 = mapGet m k1 := by
  induction m with
  | nil => simp [mapGet, mapSet, h]
  | cons p rest ih =>
    obtain ⟨k2, v2⟩ := p
    by_cases h2 : k = k2
    · subst h2; simp [mapGet, mapSet, h]
    · by_cases h3 : k1 = k2 <;> simp [mapGet, mapSet, h2, h3, ih]

theorem mapGet_mapDelete_self (m : List (α × β)) (k : α) :
    mapGet (mapDelete m k) k = none := by
  induction m with
  | nil => simp [mapGet, mapDelete]
  | cons p rest ih =>
    obtain ⟨k1, v1⟩ := p
    by_cases h : k1 = k
    · simpa [mapDelete, h] using ih
    · have h2 : ¬ k = k1 := fun h3 => h h3.symm
      simpa [mapDelete, mapGet, h, h2] using ih

theorem mapGet_mapDelete_ne (m : List (α × β)) {k k1 : α} (h : k1 ≠ k) :
    mapGet (mapDelete m k) k1 = mapGet m k1 := by
  induction m with
  | nil => simp [mapGet, mapDelete]
  | cons p rest ih =>
    obtain ⟨k2, v2⟩ := p
    by_cases h2 : k2 = k
    · subst h2
      simpa [mapDelete, mapGet, h] using ih
    · by_cases h3 : k1 = k2 <;> simp [mapDelete, mapGet, h2, h3, ih]

theorem mem_of_mapGet_eq_some {m : List (α × β)} {k : α} {v : β}
    (h : mapGet m k = some v) : (k, v) ∈ m := by
  induction m with
  | nil => simp [mapGet] at h
  | cons p rest ih =>
    obtain ⟨k1, v1⟩ := p
    by_cases h1 : k = k1
    · simp [mapGet, h1] at h
      simp [h1, h]
    · simp only [mapGet, h1, if_false] at h
      exact List.mem_cons_of_mem _ (ih h)

theorem mapGet_eq_none_of_forall {m : List (α × β)} {k : α}
    (h : ∀ p ∈ m, p.1 ≠ k) : mapGet m k = none := by
  induction m with
  | nil => rfl
  | cons p rest ih =>
    obtain ⟨k1, v1⟩ := p
    have h1 : k1 ≠ k := h (k1, v1) (List.mem_cons_self _ _)
    have h2 : ¬ k = k1 := fun h3 => h1 h3.symm
    simp only [mapGet, h2, if_false]
    exact ih (fun q hq => h q (List.mem_cons_of_mem _ hq))

theorem forall_ne_of_mapGet_eq_none {m : List (α × β)} {k : α}
    (h : mapGet m k = none) : ∀ p ∈ m, p.1 ≠ k := by
  induction m with
  | nil => simp
  | cons p rest ih =>
    obtain ⟨k1, v1⟩ := p
    by_cases h1 : k = k1
    · simp [mapGet, h1] at h
    · simp only [mapGet, h1, if_false] at h
      intro q hq
      rcases List.mem_cons.mp hq with h2 | h2
      · subst h2; exact fun h3 => h1 h3.symm
      · exact ih h q h2

theorem mapDelete_of_mapGet_eq_none {m : List (α × β)} {k : α}
    (h : mapGet m k = none) : mapDelete m k = m := by
  induction m with
  | nil => rfl
  | cons p rest ih =>
    obtain ⟨k1, v1⟩ := p
    by_cases h1 : k = k1
    · simp [mapGet, h1] at h
    · simp only [mapGet, h1, if_false] at h
      have h2 : ¬ k1 = k := fun h3 => h1 h3.symm
      simp [mapDelete, h2, ih h]

theorem mapDelete_mapDelete_self (m : List (α × β)) (k : α) :
    mapDelete (mapDelete m k) k = mapDelete m k :=
  mapDelete_of_mapGet_eq_none (mapGet_mapDelete_self m k)

theorem mapSet_of_mapGet_eq_some {m : List (α × β)} {k : α} {v : β}
    (h : mapGet m k = some v) : mapSet m k v = m := by
  induction m with
  | nil => simp [mapGet] at h
  | cons p rest ih =>
    obtain ⟨k1, v1⟩ := p
    by_cases h1 : k = k1
    · simp [mapGet, h1] at h
      simp [mapSet, h1, h]
    · simp only [mapGet, h1, if_false] at h
      simp [mapSet, h1, ih h]

theorem mapGet_of_mem_nodup {m : List (α × β)} {k : α} {v : β}
    (hnd : (m.map Prod.fst).Nodup) (hmem : (k, v) ∈ m) : mapGet m k = some v := by
  induction m with
  | nil => simp at hmem
  | cons p rest ih =>
    obtain ⟨k1, v1⟩ := p
    simp only [List.map_cons, List.nodup_cons] at hnd
    rcases List.mem_cons.mp hmem with h1 | h1
    · injection h1 with hk hv
      simp [mapGet, ← hk, hv]
    · have hk : k ≠ k1 := by
        intro h2
        subst h2
        exact hnd.1 (List.mem_map.mpr ⟨(k, v), h1, rfl⟩)
      simp only [mapGet, hk, if_false]
      exact ih hnd.2 h1

theorem mem_mapSet {m : List (α × β)} {k : α} {v : β} {q : α × β}
    (h : q ∈ mapSet m k v) : q ∈ m ∨ q = (k, v) := by
  induction m with
  | nil => simp [mapSet] at h; simp [h]
  | cons p rest ih =>
    obtain ⟨k1, v1⟩ := p
    by_cases h1 : k = k1
    · simp only [mapSet, h1, if_true] at h
      rcases List.mem_cons.mp h with h2 | h2
      · right; rw [h2, h1]
      · left; exact List.mem_cons_of_mem _ h2
    · simp only [mapSet, h1, if_false] at h
      rcases List.mem_cons.mp h with h2 | h2
      · left; simp [h2]
      · rcases ih h2 with h3 | h3
        · left; exact List.mem_cons_of_mem _ h3
        · right; exact h3

theorem keysNodup_mapSet {m : List (α × β)} (k : α) (v : β)
    (h : (m.map Prod.fst).Nodup) : ((mapSet m k v).map Prod.fst).Nodup := by
  induction m with
  | nil => simp [mapSet]
  | cons p rest ih =>
    obtain ⟨k1, v1⟩ := p
    simp only [List.map_cons, List.nodup_cons] at h
    by_cases h1 : k = k1
    · subst h1
      simpa [mapSet] using h
    · simp only [mapSet, h1, if_false, List.map_cons, List.nodup_cons]
      refine ⟨?_, ih h.2⟩
      intro hmem
      rcases List.mem_map.mp hmem with ⟨q, hq, hq1⟩
      rcases mem_mapSet hq with h2 | h2
      · exact h.1 (hq1 ▸ List.mem_map.mpr ⟨q, h2, rfl⟩)
      · rw [h2] at hq1
        exact h1 (by simpa using hq1)

theorem mapDelete_sublist (m : List (α × β)) (k : α) :
    List.Sublist (mapDelete m k) m := by
  induction m with
  | nil => simp [mapDelete]
  | cons p rest ih =>
    obtain ⟨k1, v1⟩ := p
    by_cases h1 : k1 = k
    · simp only [mapDelete, h1, if_true]
      exact ih.cons _
    · simp only [mapDelete, h1, if_false]
      exact ih.cons₂ _

theorem keysNodup_mapDelete {m : List (α × β)} (k : α)
    (h : (m.map Prod.fst).Nodup) : ((mapDelete m k).map Prod.fst).Nodup :=
  ((mapDelete_sublist m k).map Prod.fst).nodup h

theorem mem_of_mem_mapDelete {m : List (α × β)} {k : α} {q : α × β}
    (h : q ∈ mapDelete m k) : q ∈ m :=
  (mapDelete_sublist m k).mem h

theorem setDelete_setDelete (s : List α) (a : α) :
    setDelete (setDelete s a) a = setDelete s a := by
  induction s with
  | nil => rfl
  | cons b rest ih =>
    by_cases h : b = a
    · simp [setDelete, h, ih]
    · simp [setDelete, h, ih]

theorem mapSet_mapSet_self (m : List (α × β)) (k : α) (v w : β) :
    mapSet (mapSet m k v) k w = mapSet m k w := by
  induction m with
  | nil => simp [mapSet]
  | cons p rest ih =>
    obtain ⟨k1, v1⟩ := p
    by_cases h : k = k1
    · simp [mapSet, h]
    · simp [mapSet, h, ih]

end MapLemmas

/-- Two server states with equal components are equal. -/
theorem serverStateExt {a b : ServerState}
    (h1 : a.onlineUsers = b.onlineUsers) (h2 : a.typingUsers = b.typingUsers)
    (h3 : a.locationRoomUsers = b.locationRoomUsers)
    (h4 : a.socketLocationRooms = b.socketLocationRooms)
    (h5 : a.adapterRooms = b.adapterRooms) (h6 : a.timers = b.timers)
    (h7 : a.nextTimerId = b.nextTimerId) : a = b := by
  cases a; cases b
  simp_all

theorem leaveRoom_idem (rooms : List (String × List String)) (sock r : String) :
    leaveRoom (leaveRoom rooms sock r) sock r = leaveRoom rooms sock r := by
  unfold leaveRoom
  rw [mapGet_mapSet_self]
  simp only [Option.getD_some]
  rw [setDelete_setDelete, mapSet_mapSet_self]

theorem removeUserLocPart_idem (loc : List (String × List (Option String × LocEntry)))
    (room : String) (uid : Option String) :
    removeUserLocPart (removeUserLocPart loc room uid) room uid =
      removeUserLocPart loc room uid := by
  unfold removeUserLocPart
  cases h : mapGet loc room with
  | none => simp [h]
  | some m =>
    by_cases hlen : (mapDelete m uid).length = 0
    · simp [h, hlen, mapGet_mapDelete_self]
    · simp [h, hlen, mapGet_mapSet_self, mapDelete_mapDelete_self, mapSet_mapSet_self]

theorem removeUserSockPart_idem (tbl : List (String × List String)) (sock room : String) :
    removeUserSockPart (removeUserSockPart tbl sock room) sock room =
      removeUserSockPart tbl sock room := by
  unfold removeUserSockPart
  cases h : mapGet tbl sock with
  | none => simp [h]
  | some s =>
    by_cases hlen : (setDelete s room).length = 0
    · simp [h, hlen, mapGet_mapDelete_self]
    · simp [h, hlen, mapGet_mapSet_self, setDelete_setDelete, mapSet_mapSet_self]

/-- The presence broadcast reads only the locationRoomUsers table. -/
theorem broadcastPresence_congr {a b : ServerState}
    (h : a.locationRoomUsers = b.locationRoomUsers) (room cc : String) :
    broadcastPresence a room cc = broadcastPresence b room cc := by
  simp [broadcastPresence, presencePayload, presenceUsers, h]

/-! ### Helper lemmas about the typing tracker -/

theorem clearTyping_mapGet_self (st : ServerState) (cid uid : Option String) :
    mapGet (clearTypingTimeout st cid uid).typingUsers (typingKey cid uid) = none := by
  unfold clearTypingTimeout
  dsimp only
  split
  · next e heq => simpa using mapGet_mapDelete_self st.typingUsers (typingKey cid uid)
  · next heq => simpa using heq

theorem clearTyping_onlineUsers (st : ServerState) (cid uid : Option String) :
    (clearTypingTimeout st cid uid).onlineUsers = st.onlineUsers := by
  unfold clearTypingTimeout
  dsimp only
  split <;> rfl

/-! ### C9: conversation-update always broadcasts -/

/-- C9.  Every inbound 'conversation-update' event produces a global
broadcast and is never dropped: 'contactRequestAccepted' exactly when the
status field equals "accepted", and 'contactRequestRejected' for every other
status value, including an absent one.  State is unchanged. -/
theorem conversation_update_always_broadcasts (st : ServerState) (d : ConvUpdateData) :
    (handleConversationUpdate st d).1 = st ∧
    (handleConversationUpdate st d).2 =
      [⟨Target.all,
        if d.status = some "accepted" then "contactRequestAccepted"
        else "contactRequestRejected",
        Payload.convUpdate d⟩] ∧
    ((if d.status = some "accepted" then "contactRequestAccepted"
      else "contactRequestRejected") = "contactRequestAccepted" ↔
      d.status = some "accepted") := by
  refine ⟨rfl, rfl, ?_⟩
  by_cases h : d.status = some "accepted" <;> simp [h]

/-! ### C8: stop-typing emitted before the room-scoped message -/

/-- C8.  Within a single 'send-message' invocation by a sender with a known
(truthy) identity, the first two emissions are, in order, 'userStopTyping'
to the conversation room and then the room-scoped message event to the same
room: every receiver of the room observes the stop-typing event before the
message. -/
theorem send_message_stop_before_message (st : ServerState) (sock u : String)
    (hu : u ≠ "") (d : MessageData) :
    ((handleSendMessage st sock (some u) d).2).take 2 =
      [⟨Target.room ("conversation:" ++ interp d.conversationId), "userStopTyping",
        Payload.stopTyping (some u) d.conversationId⟩,
       ⟨Target.room ("conversation:" ++ interp d.conversationId),
        "message:" ++ interp d.conversationId, Payload.messageBody d.message⟩] := by
  simp [handleSendMessage, truthyS, hu]

/-- C8 witness: concrete instantiation at a known sender and a direct
message. -/
theorem send_message_stop_before_message_witness :
    ("u1" : String) ≠ "" ∧
    ((handleSendMessage initState "s1" (some "u1")
        ⟨some "c1", some "hi", none, false, none⟩).2).take 2 =
      [⟨Target.room ("conversation:" ++ interp (some "c1")), "userStopTyping",
        Payload.stopTyping (some "u1") (some "c1")⟩,
       ⟨Target.room ("conversation:" ++ interp (some "c1")),
        "message:" ++ interp (some "c1"), Payload.messageBody (some "hi")⟩] :=
  ⟨by decide,
   send_message_stop_before_message initState "s1" "u1" (by decide)
     ⟨some "c1", some "hi", none, false, none⟩⟩

/-! ### C2: send-message does not validate (corrected) -/

/-- C2 counterexample.  A 'send-message' event missing both required fields
(conversation id and message payload) is NOT silently dropped: the handler
still emits the room-scoped message event (to room "conversation:undefined")
and the global 'newMessage' event. -/
theorem send_message_missing_fields_cx :
    (handleSendMessage initState "s1" none ⟨none, none, none, false, none⟩).2.length = 2 ∧
    (handleSendMessage initState "s1" none
        ⟨none, none, none, false, none⟩).2.map Emit.event =
      ["message:undefined", "newMessage"] := by
  exact ⟨rfl, rfl⟩

/-- C2 amended.  The 'send-message' handler performs no validation at all:
for every state, sender and payload — in particular payloads missing the
conversation id or the message — it emits the room-scoped message event and
the global 'newMessage' event (interpolating an absent conversation id as
the text "undefined"). -/
theorem send_message_never_validates (st : ServerState) (sock : String)
    (auth : Option String) (d : MessageData) :
    (⟨Target.all, "newMessage", Payload.messageData d⟩ : Emit) ∈
      (handleSendMessage st sock auth d).2 ∧
    (⟨Target.room ("conversation:" ++ interp d.conversationId),
      "message:" ++ interp d.conversationId, Payload.messageBody d.message⟩ : Emit) ∈
      (handleSendMessage st sock auth d).2 := by
  unfold handleSendMessage
  by_cases h : truthyS auth <;> simp [h]

/-! ### C5: stopTyping and leave-conversation emit unconditionally (corrected) -/

/-- C5 counterexample.  In the initial state no typing entry exists for
(conversation "c1", user "u1"), yet the 'stopTyping' handler still emits
'userStopTyping' to the conversation room — the emission is not conditional
on a pending entry, contrary to the claim. -/
theorem stop_typing_without_entry_cx :
    initState.typingUsers = [] ∧
    (handleStopTyping initState "s1" ⟨some "u1", some "c1", none⟩).2 =
      [⟨Target.roomExceptSender "conversation:c1" "s1", "userStopTyping",
        Payload.typingData ⟨some "u1", some "c1", none⟩⟩] := by
  exact ⟨rfl, rfl⟩

/-- C5 amended.  The 'stopTyping' handler emits 'userStopTyping' whenever
the event's userId and conversationId are truthy, and the
'leave-conversation' handler emits it whenever the connect-time identity is
truthy — in both cases regardless of whether a typing entry existed; any
pending entry for the key is removed. -/
theorem stop_typing_and_leave_emit_unconditionally :
    (∀ (st : ServerState) (sock : String) (d : TypingData),
      truthyS d.userId = true → truthyS d.conversationId = true →
      (handleStopTyping st sock d).2 =
        [⟨Target.roomExceptSender ("conversation:" ++ interp d.conversationId) sock,
          "userStopTyping", Payload.typingData d⟩] ∧
      mapGet (handleStopTyping st sock d).1.typingUsers
        (typingKey d.conversationId d.userId) = none) ∧
    (∀ (st : ServerState) (sock : String) (auth conversationId : Option String),
      truthyS auth = true →
      (handleLeaveConversation st sock auth conversationId).2 =
        [⟨Target.room ("conversation:" ++ interp conversationId), "userStopTyping",
          Payload.stopTyping auth conversationId⟩] ∧
      mapGet (handleLeaveConversation st sock auth conversationId).1.typingUsers
        (typingKey conversationId auth) = none) := by
  constructor
  · intro st sock d hu hc
    have hred : handleStopTyping st sock d =
        (clearTypingTimeout st d.conversationId d.userId,
         [⟨Target.roomExceptSender ("conversation:" ++ interp d.conversationId) sock,
           "userStopTyping", Payload.typingData d⟩]) := by
      unfold handleStopTyping
      simp [hu, hc]
    rw [hred]
    exact ⟨rfl, clearTyping_mapGet_self st d.conversationId d.userId⟩
  · intro st sock auth conversationId ha
    have hred : handleLeaveConversation st sock auth conversationId =
        (clearTypingTimeout
          { st with adapterRooms :=
              leaveRoom st.adapterRooms sock ("conversation:" ++ interp conversationId) }
          conversationId auth,
         [⟨Target.room ("conversation:" ++ interp conversationId), "userStopTyping",
           Payload.stopTyping auth conversationId⟩]) := by
      unfold handleLeaveConversation
      simp [ha]
    rw [hred]
    exact ⟨rfl, clearTyping_mapGet_self _ conversationId auth⟩

/-- C5 witness: both conjuncts instantiated at concrete inputs with truthy
fields. -/
theorem stop_typing_and_leave_emit_unconditionally_witness :
    truthyS (some "u1") = true ∧
    ((handleStopTyping initState "s1" ⟨some "u1", some "c1", none⟩).2 =
      [⟨Target.roomExceptSender ("conversation:" ++ interp (some "c1")) "s1",
        "userStopTyping", Payload.typingData ⟨some "u1", some "c1", none⟩⟩] ∧
     mapGet (handleStopTyping initState "s1"
        ⟨some "u1", some "c1", none⟩).1.typingUsers
        (typingKey (some "c1") (some "u1")) = none) ∧
    ((handleLeaveConversation initState "s2" (some "u2") (some "c2")).2 =
      [⟨Target.room ("conversation:" ++ interp (some "c2")), "userStopTyping",
        Payload.stopTyping (some "u2") (some "c2")⟩] ∧
     mapGet (handleLeaveConversation initState "s2" (some "u2")
        (some "c2")).1.typingUsers (typingKey (some "c2") (some "u2")) = none) :=
  ⟨by decide,
   stop_typing_and_leave_emit_unconditionally.1 initState "s1"
     ⟨some "u1", some "c1", none⟩ (by decide) (by decide),
   stop_typing_and_leave_emit_unconditionally.2 initState "s2" (some "u2")
     (some "c2") (by decide)⟩

/-! ### C1: online/offline broadcasts versus session transitions (corrected) -/

/-- C1 counterexample.  Two connects by the same identity are a single
zero-to-non-zero transition of the session set, yet 'userOnline' is
broadcast twice — once per connect — so the event is not emitted "exactly
once per transition". -/
theorem user_online_per_transition_cx :
    countUserEvent (run initState
      [Action.connect "s1" (some "u1"), Action.connect "s2" (some "u1")]).2
      "userOnline" "u1" = 2 ∧
    onlineTransitions "u1" initState
      [Action.connect "s1" (some "u1"), Action.connect "s2" (some "u1")] = 1 := by
  exact ⟨by decide, by decide⟩

/-! ### C3: disconnect cleanup of the location tables (corrected) -/

/-- C3 counterexample.  A socket that connected anonymously (no handshake
identity) but joined a location chat supplying a user id in the event
payload leaves residual entries in both locationRoomUsers and
socketLocationRooms after its disconnect: the cleanup loop is guarded by
the connect-time identity. -/
theorem disconnect_anonymous_residual_cx :
    mapGet (run initState
      [Action.joinLocationChat "s1" ⟨some "fr", some "u1", some "Lea"⟩,
       Action.disconnect "s1" none]).1.locationRoomUsers "location-chat:FR" =
      some [(some "u1", ⟨"s1", "Lea"⟩)] ∧
    mapGet (run initState
      [Action.joinLocationChat "s1" ⟨some "fr", some "u1", some "Lea"⟩,
       Action.disconnect "s1" none]).1.socketLocationRooms "s1" =
      some ["location-chat:FR"] := by
  exact ⟨by decide, by decide⟩

/-! ### C6: repeated leave-location-chat (corrected) -/

/-- C6 counterexample.  With users u1 and u2 in room FR, u2's second
consecutive 'leave-location-chat' changes no state but DOES emit another
'location-room-presence' broadcast, identical to the first one — the claim
that no duplicate presence broadcast is emitted fails. -/
theorem leave_location_twice_cx :
    (handleLeaveLocationChat
      (handleLeaveLocationChat
        (run initState
          [Action.joinLocationChat "s1" ⟨some "fr", some "u1", some "A"⟩,
           Action.joinLocationChat "s2" ⟨some "fr", some "u2", some "B"⟩]).1
        "s2" (some "fr") (some "u2")).1
      "s2" (some "fr") (some "u2")).2 =
      [⟨Target.room "location-chat:FR", "location-room-presence",
        Payload.presence "FR" 1 [(some "u1", "A")]⟩] ∧
    (handleLeaveLocationChat
      (run initState
        [Action.joinLocationChat "s1" ⟨some "fr", some "u1", some "A"⟩,
         Action.joinLocationChat "s2" ⟨some "fr", some "u2", some "B"⟩]).1
      "s2" (some "fr") (some "u2")).2 =
      [⟨Target.room "location-chat:FR", "location-room-presence",
        Payload.presence "FR" 1 [(some "u1", "A")]⟩] := by
  exact ⟨by decide, by decide⟩

/-- C6 amended.  Calling leave-location-chat twice in a row is idempotent on
the state (the second call changes nothing), but the second call still
emits one more 'location-room-presence' broadcast, carrying the unchanged
(not decremented-twice) snapshot of the room. -/
theorem leave_location_chat_idempotent_state (st : ServerState) (sock : String)
    (cc uid : Option String) (h : truthyS cc = true) :
    (handleLeaveLocationChat (handleLeaveLocationChat st sock cc uid).1 sock cc uid).1 =
      (handleLeaveLocationChat st sock cc uid).1 ∧
    (handleLeaveLocationChat (handleLeaveLocationChat st sock cc uid).1 sock cc uid).2 =
      [broadcastPresence (handleLeaveLocationChat st sock cc uid).1
        ("location-chat:" ++ jsToUpper (interp cc)) (jsToUpper (interp cc))] := by
  constructor
  · apply serverStateExt <;>
      simp [handleLeaveLocationChat, removeUserFromLocationRoom, h, leaveRoom_idem,
        removeUserLocPart_idem, removeUserSockPart_idem]
  · have hcongr :
        broadcastPresence
          (handleLeaveLocationChat (handleLeaveLocationChat st sock cc uid).1 sock cc uid).1
          ("location-chat:" ++ jsToUpper (interp cc)) (jsToUpper (interp cc)) =
        broadcastPresence (handleLeaveLocationChat st sock cc uid).1
          ("location-chat:" ++ jsToUpper (interp cc)) (jsToUpper (interp cc)) := by
      apply broadcastPresence_congr
      simp [handleLeaveLocationChat, removeUserFromLocationRoom, h, removeUserLocPart_idem]
    rw [← hcongr]
    simp [handleLeaveLocationChat, removeUserFromLocationRoom, h, broadcastPresence,
      presencePayload, presenceUsers]

/-- C6 witness: the concrete two-user room scenario, second leave of u2. -/
theorem leave_location_chat_idempotent_state_witness :
    truthyS (some "fr") = true ∧
    ((handleLeaveLocationChat
        (handleLeaveLocationChat
          (run initState
            [Action.joinLocationChat "s1" ⟨some "fr", some "u1", some "A"⟩,
             Action.joinLocationChat "s2" ⟨some "fr", some "u2", some "B"⟩]).1
          "s2" (some "fr") (some "u2")).1
        "s2" (some "fr") (some "u2")).1 =
      (handleLeaveLocationChat
        (run initState
          [Action.joinLocationChat "s1" ⟨some "fr", some "u1", some "A"⟩,
           Action.joinLocationChat "s2" ⟨some "fr", some "u2", some "B"⟩]).1
        "s2" (some "fr") (some "u2")).1 ∧
     (handleLeaveLocationChat
        (handleLeaveLocationChat
          (run initState
            [Action.joinLocationChat "s1" ⟨some "fr", some "u1", some "A"⟩,
             Action.joinLocationChat "s2" ⟨some "fr", some "u2", some "B"⟩]).1
          "s2" (some "fr") (some "u2")).1
        "s2" (some "fr") (some "u2")).2 =
      [broadcastPresence
        (handleLeaveLocationChat
          (run initState
            [Action.joinLocationChat "s1" ⟨some "fr", some "u1", some "A"⟩,
             Action.joinLocationChat "s2" ⟨some "fr", some "u2", some "B"⟩]).1
          "s2" (some "fr") (some "u2")).1
        ("location-chat:" ++ jsToUpper (interp (some "fr")))
        (jsToUpper (interp (some "fr")))]) :=
  ⟨by decide,
   leave_location_chat_idempotent_state
     (run initState
       [Action.joinLocationChat "s1" ⟨some "fr", some "u1", some "A"⟩,
        Action.joinLocationChat "s2" ⟨some "fr", some "u2", some "B"⟩]).1
     "s2" (some "fr") (some "u2") (by decide)⟩

/-! ### C7: presence snapshots reflect the tracked member set -/

theorem presencePayload_congr {a b : ServerState} (room : String)
    (h : mapGet a.locationRoomUsers room = mapGet b.locationRoomUsers room)
    (cc : String) : presencePayload a room cc = presencePayload b room cc := by
  unfold presencePayload presenceUsers
  rw [h]

theorem locStep_loc_clean (u : String) (acc : ServerState × List Emit)
    (room1 r : String) {m : List (Option String × LocEntry)}
    (h : mapGet acc.1.locationRoomUsers r = some m)
    (hu : mapGet m (some u) = none) (hne : m.length ≠ 0) :
    mapGet (locationCleanupStep u acc room1).1.locationRoomUsers r = some m := by
  unfold locationCleanupStep
  cases hm : mapGet acc.1.locationRoomUsers room1 with
  | none => simpa using h
  | some m1 =>
    by_cases hr : r = room1
    · subst hr
      rw [h] at hm
      injection hm with hm
      subst hm
      have hdel : mapDelete m (some u) = m := mapDelete_of_mapGet_eq_none hu
      simp [hdel, hne, mapGet_mapSet_self]
    · by_cases hlen : (mapDelete m1 (some u)).length = 0
      · simp only [hlen, if_true]
        rw [mapGet_mapDelete_ne _ hr]
        exact h
      · simp only [hlen, if_false]
        rw [mapGet_mapSet_ne _ _ hr]
        exact h

theorem locFold_loc_clean (u : String) (l : List String) :
    ∀ (acc : ServerState × List Emit) (r : String) (m : List (Option String × LocEntry)),
    mapGet acc.1.locationRoomUsers r = some m →
    mapGet m (some u) = none → m.length ≠ 0 →
    mapGet (l.foldl (locationCleanupStep u) acc).1.locationRoomUsers r = some m := by
  induction l with
  | nil => intro acc r m h hu hne; simpa using h
  | cons room1 rest ih =>
    intro acc r m h hu hne
    rw [List.foldl_cons]
    exact ih (locationCleanupStep u acc room1) r m
      (locStep_loc_clean u acc room1 r h hu hne) hu hne

theorem locFold_emits (u : String) (l : List String) :
    ∀ (acc : ServerState × List Emit),
    ∀ e ∈ (l.foldl (locationCleanupStep u) acc).2, e ∈ acc.2 ∨
      ∃ room, e.target = Target.room room ∧ e.event = "location-room-presence" ∧
        e.payload = presencePayload (l.foldl (locationCleanupStep u) acc).1 room
          (jsReplace room "location-chat:") := by
  induction l with
  | nil => intro acc e he; exact Or.inl (by simpa using he)
  | cons room1 rest ih =>
    intro acc e he
    rw [List.foldl_cons] at he ⊢
    rcases ih (locationCleanupStep u acc room1) e he with h1 | h1
    · unfold locationCleanupStep at h1
      cases hm : mapGet acc.1.locationRoomUsers room1 with
      | none =>
        rw [hm] at h1
        exact Or.inl h1
      | some m =>
        rw [hm] at h1
        by_cases hlen : (mapDelete m (some u)).length = 0
        · simp only [hlen, if_true] at h1
          exact Or.inl h1
        · simp only [hlen, if_false] at h1
          rcases List.mem_append.mp h1 with h2 | h2
          · exact Or.inl h2
          · right
            have he2 : e = broadcastPresence
                { acc.1 with
                  locationRoomUsers :=
                    mapSet acc.1.locationRoomUsers room1 (mapDelete m (some u)) }
                room1 (jsReplace room1 "location-chat:") := by
              simpa using h2
            refine ⟨room1, ?_, ?_, ?_⟩
            · rw [he2]; rfl
            · rw [he2]; rfl
            · rw [he2]
              show presencePayload _ room1 _ = _
              have hfin :
                  mapGet (rest.foldl (locationCleanupStep u)
                    (locationCleanupStep u acc room1)).1.locationRoomUsers room1 =
                    some (mapDelete m (some u)) := by
                apply locFold_loc_clean
                · show mapGet (locationCleanupStep u acc room1).1.locationRoomUsers room1 =
                    some (mapDelete m (some u))
                  unfold locationCleanupStep
                  rw [hm]
                  simp [hlen, mapGet_mapSet_self]
                · exact mapGet_mapDelete_self m (some u)
                · exact hlen
              apply presencePayload_congr
              rw [hfin, mapGet_mapSet_self]
    · exact Or.inr h1

theorem typingFold_events (u : String) (l : List (String × TypingEntry)) :
    ∀ (acc : ServerState × List Emit),
    ∀ e ∈ (l.foldl (typingCleanupStep u) acc).2,
      e ∈ acc.2 ∨ e.event = "userStopTyping" := by
  induction l with
  | nil => intro acc e he; exact Or.inl (by simpa using he)
  | cons p rest ih =>
    intro acc e he
    rw [List.foldl_cons] at he
    rcases ih (typingCleanupStep u acc p) e he with h1 | h1
    · unfold typingCleanupStep at h1
      by_cases hend : jsEndsWith p.1 (":" ++ u)
      · simp only [hend, if_true] at h1
        rcases List.mem_append.mp h1 with h2 | h2
        · exact Or.inl h2
        · right
          have : e = ⟨Target.room ("conversation:" ++ firstSegment p.1), "userStopTyping",
              Payload.stopTyping (some u) (some (firstSegment p.1))⟩ := by
            simpa using h2
          rw [this]
      · simp only [hend, if_false] at h1
        exact Or.inl h1
    · exact Or.inr h1

/-- C7.  Every 'location-room-presence' payload the server produces — on
join, leave, the disconnect cascade, or a get-location-room-users query —
is the snapshot of the tracked member table at the time it is computed: its
onlineCount equals the number of tracked members of the room and its users
list is exactly those members paired with their stored display names.  For
join and leave this is the post-handler state; for the query, the unchanged
state; for disconnect, the room's member table is not touched again after
its broadcast, so the snapshot also equals the handler's final state. -/
theorem location_presence_snapshot_correct :
    (∀ (st : ServerState) (room cc : String),
      presencePayload st room cc =
        Payload.presence cc ((mapGet st.locationRoomUsers room).getD []).length
          (((mapGet st.locationRoomUsers room).getD []).map
            (fun p => (p.1, p.2.userName)))) ∧
    (∀ (st : ServerState) (sock : String) (d : LocJoinData),
      truthyS d.countryCode = true →
      (handleJoinLocationChat st sock d).2 =
        [⟨Target.room ("location-chat:" ++ jsToUpper (interp d.countryCode)),
          "location-room-presence",
          presencePayload (handleJoinLocationChat st sock d).1
            ("location-chat:" ++ jsToUpper (interp d.countryCode))
            (jsToUpper (interp d.countryCode))⟩]) ∧
    (∀ (st : ServerState) (sock : String) (cc uid : Option String),
      truthyS cc = true →
      (handleLeaveLocationChat st sock cc uid).2 =
        [⟨Target.room ("location-chat:" ++ jsToUpper (interp cc)),
          "location-room-presence",
          presencePayload (handleLeaveLocationChat st sock cc uid).1
            ("location-chat:" ++ jsToUpper (interp cc)) (jsToUpper (interp cc))⟩]) ∧
    (∀ (st : ServerState) (sock : String) (cc : Option String),
      truthyS cc = true →
      (handleGetLocationRoomUsers st sock cc).1 = st ∧
      (handleGetLocationRoomUsers st sock cc).2 =
        [⟨Target.selfSock sock, "location-room-presence",
          presencePayload st ("location-chat:" ++ jsToUpper (interp cc))
            (jsToUpper (interp cc))⟩]) ∧
    (∀ (st : ServerState) (sock : String) (auth : Option String),
      ∀ e ∈ (handleDisconnect st sock auth).2,
      e.event = "location-room-presence" →
      ∃ room, e.target = Target.room room ∧
        e.payload = presencePayload (handleDisconnect st sock auth).1 room
          (jsReplace room "location-chat:")) := by
  refine ⟨?_, ?_, ?_, ?_, ?_⟩
  · intro st room cc
    unfold presencePayload presenceUsers
    cases mapGet st.locationRoomUsers room <;> simp
  · intro st sock d h
    simp [handleJoinLocationChat, h, broadcastPresence]
  · intro st sock cc uid h
    simp [handleLeaveLocationChat, h, broadcastPresence]
  · intro st sock cc h
    simp [handleGetLocationRoomUsers, h]
  · intro st sock auth e he hev
    by_cases ha : truthyS auth
    · have hsplit :
          (handleDisconnect st sock auth).2 =
            (disconnectRegistryPart st sock (interp auth)).2 ++
            (disconnectLocationCleanup (disconnectRegistryPart st sock (interp auth)).1
              sock (interp auth)).2 := by
        unfold handleDisconnect
        simp [ha]
      have hloc :
          (handleDisconnect st sock auth).1.locationRoomUsers =
            (disconnectLocationCleanup (disconnectRegistryPart st sock (interp auth)).1
              sock (interp auth)).1.locationRoomUsers := by
        unfold handleDisconnect
        simp [ha]
      rw [hsplit] at he
      rcases List.mem_append.mp he with h1 | h1
      · exfalso
        unfold disconnectRegistryPart at h1
        cases hm : mapGet st.onlineUsers (interp auth) with
        | none => rw [hm] at h1; simp at h1
        | some sockets =>
          rw [hm] at h1
          by_cases hlen : (setDelete sockets sock).length = 0
          · simp only [hlen, if_true] at h1
            rcases List.mem_cons.mp h1 with h2 | h2
            · rw [h2] at hev; simp at hev
            · rcases typingFold_events (interp auth) _ _ e h2 with h3 | h3
              · simp [disconnectTypingCleanup] at h3
              · rw [h3] at hev; simp at hev
          · simp only [hlen, if_false] at h1
            simp at h1
      · unfold disconnectLocationCleanup at h1
        cases hsr : mapGet (disconnectRegistryPart st sock
            (interp auth)).1.socketLocationRooms sock with
        | none => rw [hsr] at h1; simp at h1
        | some socketRooms =>
          rw [hsr] at h1
          simp only at h1
          rcases locFold_emits (interp auth) socketRooms _ e h1 with h2 | h2
          · simp at h2
          · obtain ⟨room, ht, _, hp⟩ := h2
            refine ⟨room, ht, ?_⟩
            rw [hp]
            apply presencePayload_congr
            rw [hloc]
            unfold disconnectLocationCleanup
            rw [hsr]
    · exfalso
      unfold handleDisconnect at he
      simp [ha] at he

/-- C7 witness: a disconnect in a two-member room emits the presence
snapshot of the surviving member. -/
theorem location_presence_snapshot_correct_witness :
    ∃ room, (⟨Target.room "location-chat:FR", "location-room-presence",
        Payload.presence "FR" 1 [(some "u1", "A")]⟩ : Emit).target = Target.room room ∧
      (⟨Target.room "location-chat:FR", "location-room-presence",
        Payload.presence "FR" 1 [(some "u1", "A")]⟩ : Emit).payload =
        presencePayload
          (handleDisconnect
            (run initState
              [Action.joinLocationChat "s1" ⟨some "fr", some "u1", some "A"⟩,
               Action.joinLocationChat "s2" ⟨some "fr", some "u2", some "B"⟩]).1
            "s2" (some "u2")).1 room (jsReplace room "location-chat:") :=
  location_presence_snapshot_correct.2.2.2.2
    (run initState
      [Action.joinLocationChat "s1" ⟨some "fr", some "u1", some "A"⟩,
       Action.joinLocationChat "s2" ⟨some "fr", some "u2", some "B"⟩]).1
    "s2" (some "u2")
    ⟨Target.room "location-chat:FR", "location-room-presence",
      Payload.presence "FR" 1 [(some "u1", "A")]⟩
    (by decide) (by decide)

/-! ### C3: disconnect cleanup of the location tables (amended part) -/

theorem key_ne_of_mem_mapDelete {α : Type _} {β : Type _} [DecidableEq α]
    {m : List (α × β)} {k : α} {q : α × β} (h : q ∈ mapDelete m k) : q.1 ≠ k := by
  induction m with
  | nil => simp [mapDelete] at h
  | cons p rest ih =>
    obtain ⟨k1, v1⟩ := p
    by_cases h1 : k1 = k
    · simp only [mapDelete, h1, if_true] at h
      exact ih h
    · simp only [mapDelete, h1, if_false] at h
      rcases List.mem_cons.mp h with h2 | h2
      · rw [h2]; exact h1
      · exact ih h2

theorem locStep_loc_none (u : String) (acc : ServerState × List Emit)
    (room1 r : String) (h : mapGet acc.1.locationRoomUsers r = none) :
    mapGet (locationCleanupStep u acc room1).1.locationRoomUsers r = none := by
  unfold locationCleanupStep
  cases hm : mapGet acc.1.locationRoomUsers room1 with
  | none => simpa using h
  | some m1 =>
    by_cases hr : r = room1
    · subst hr
      rw [h] at hm
      cases hm
    · by_cases hlen : (mapDelete m1 (some u)).length = 0
      · simp only [hlen, if_true]
        rw [mapGet_mapDelete_ne _ hr]
        exact h
      · simp only [hlen, if_false]
        rw [mapGet_mapSet_ne _ _ hr]
        exact h

theorem locFold_loc_none (u : String) (l : List String) :
    ∀ (acc : ServerState × List Emit) (r : String),
    mapGet acc.1.locationRoomUsers r = none →
    mapGet (l.foldl (locationCleanupStep u) acc).1.locationRoomUsers r = none := by
  induction l with
  | nil => intro acc r h; simpa using h
  | cons room1 rest ih =>
    intro acc r h
    rw [List.foldl_cons]
    exact ih (locationCleanupStep u acc room1) r (locStep_loc_none u acc room1 r h)

/-- Every room the disconnect sweep visits ends up without the user's
entry (or gone entirely). -/
theorem locFold_cleans (u : String) (l : List String) :
    ∀ (acc : ServerState × List Emit) (r : String), r ∈ l →
    ∀ m, mapGet (l.foldl (locationCleanupStep u) acc).1.locationRoomUsers r = some m →
    mapGet m (some u) = none := by
  induction l with
  | nil => intro acc r hr; simp at hr
  | cons room1 rest ih =>
    intro acc r hr m hm
    rw [List.foldl_cons] at hm
    rcases List.mem_cons.mp hr with h1 | h1
    · subst h1
      cases hm0 : mapGet acc.1.locationRoomUsers r with
      | none =>
        have hnone : mapGet (locationCleanupStep u acc r).1.locationRoomUsers r = none :=
          locStep_loc_none u acc r r hm0
        rw [locFold_loc_none u rest _ r hnone] at hm
        cases hm
      | some m0 =>
        by_cases hlen : (mapDelete m0 (some u)).length = 0
        · have hnone : mapGet (locationCleanupStep u acc r).1.locationRoomUsers r = none := by
            unfold locationCleanupStep
            rw [hm0]
            simp [hlen, mapGet_mapDelete_self]
          rw [locFold_loc_none u rest _ r hnone] at hm
          cases hm
        · have hstep : mapGet (locationCleanupStep u acc r).1.locationRoomUsers r =
              some (mapDelete m0 (some u)) := by
            unfold locationCleanupStep
            rw [hm0]
            simp [hlen, mapGet_mapSet_self]
          have hfin := locFold_loc_clean u rest (locationCleanupStep u acc r) r
            (mapDelete m0 (some u)) hstep (mapGet_mapDelete_self m0 (some u)) hlen
          rw [hfin] at hm
          injection hm with hm
          rw [← hm]
          exact mapGet_mapDelete_self m0 (some u)
    · exact ih (locationCleanupStep u acc room1) r h1 m hm

theorem locStep_proj (u : String) (acc : ServerState × List Emit) (room1 : String) :
    (locationCleanupStep u acc room1).1.onlineUsers = acc.1.onlineUsers ∧
    (locationCleanupStep u acc room1).1.typingUsers = acc.1.typingUsers ∧
    (locationCleanupStep u acc room1).1.socketLocationRooms = acc.1.socketLocationRooms ∧
    (locationCleanupStep u acc room1).1.adapterRooms = acc.1.adapterRooms ∧
    (locationCleanupStep u acc room1).1.timers = acc.1.timers ∧
    (locationCleanupStep u acc room1).1.nextTimerId = acc.1.nextTimerId := by
  unfold locationCleanupStep
  cases hm : mapGet acc.1.locationRoomUsers room1 with
  | none => exact ⟨rfl, rfl, rfl, rfl, rfl, rfl⟩
  | some m1 =>
    by_cases hlen : (mapDelete m1 (some u)).length = 0 <;>
      simp [hlen]

theorem locFold_proj (u : String) (l : List String) :
    ∀ (acc : ServerState × List Emit),
    (l.foldl (locationCleanupStep u) acc).1.onlineUsers = acc.1.onlineUsers ∧
    (l.foldl (locationCleanupStep u) acc).1.typingUsers = acc.1.typingUsers ∧
    (l.foldl (locationCleanupStep u) acc).1.socketLocationRooms =
      acc.1.socketLocationRooms ∧
    (l.foldl (locationCleanupStep u) acc).1.adapterRooms = acc.1.adapterRooms ∧
    (l.foldl (locationCleanupStep u) acc).1.timers = acc.1.timers ∧
    (l.foldl (locationCleanupStep u) acc).1.nextTimerId = acc.1.nextTimerId := by
  induction l with
  | nil => intro acc; exact ⟨rfl, rfl, rfl, rfl, rfl, rfl⟩
  | cons room1 rest ih =>
    intro acc
    rw [List.foldl_cons]
    obtain ⟨a1, a2, a3, a4, a5, a6⟩ := ih (locationCleanupStep u acc room1)
    obtain ⟨b1, b2, b3, b4, b5, b6⟩ := locStep_proj u acc room1
    exact ⟨a1.trans b1, a2.trans b2, a3.trans b3, a4.trans b4, a5.trans b5, a6.trans b6⟩

theorem typingStep_proj (u : String) (acc : ServerState × List Emit)
    (p : String × TypingEntry) :
    (typingCleanupStep u acc p).1.onlineUsers = acc.1.onlineUsers ∧
    (typingCleanupStep u acc p).1.locationRoomUsers = acc.1.locationRoomUsers ∧
    (typingCleanupStep u acc p).1.socketLocationRooms = acc.1.socketLocationRooms ∧
    (typingCleanupStep u acc p).1.adapterRooms = acc.1.adapterRooms ∧
    (typingCleanupStep u acc p).1.nextTimerId = acc.1.nextTimerId := by
  unfold typingCleanupStep
  by_cases h : jsEndsWith p.1 (":" ++ u) <;> simp [h]

theorem typingFold_proj (u : String) (l : List (String × TypingEntry)) :
    ∀ (acc : ServerState × List Emit),
    (l.foldl (typingCleanupStep u) acc).1.onlineUsers = acc.1.onlineUsers ∧
    (l.foldl (typingCleanupStep u) acc).1.locationRoomUsers = acc.1.locationRoomUsers ∧
    (l.foldl (typingCleanupStep u) acc).1.socketLocationRooms =
      acc.1.socketLocationRooms ∧
    (l.foldl (typingCleanupStep u) acc).1.adapterRooms = acc.1.adapterRooms ∧
    (l.foldl (typingCleanupStep u) acc).1.nextTimerId = acc.1.nextTimerId := by
  induction l with
  | nil => intro acc; exact ⟨rfl, rfl, rfl, rfl, rfl⟩
  | cons p rest ih =>
    intro acc
    rw [List.foldl_cons]
    obtain ⟨a1, a2, a3, a4, a5⟩ := ih (typingCleanupStep u acc p)
    obtain ⟨b1, b2, b3, b4, b5⟩ := typingStep_proj u acc p
    exact ⟨a1.trans b1, a2.trans b2, a3.trans b3, a4.trans b4, a5.trans b5⟩

theorem regPart_proj (st : ServerState) (sock u : String) :
    (disconnectRegistryPart st sock u).1.locationRoomUsers = st.locationRoomUsers ∧
    (disconnectRegistryPart st sock u).1.socketLocationRooms = st.socketLocationRooms ∧
    (disconnectRegistryPart st sock u).1.adapterRooms = st.adapterRooms := by
  unfold disconnectRegistryPart
  cases hm : mapGet st.onlineUsers u with
  | none => exact ⟨rfl, rfl, rfl⟩
  | some sockets =>
    by_cases hlen : (setDelete sockets sock).length = 0
    · simp only [hlen, if_true]
      obtain ⟨_, a2, a3, a4, _⟩ :=
        typingFold_proj u
          ({ st with onlineUsers := mapDelete st.onlineUsers u }).typingUsers
          ({ st with onlineUsers := mapDelete st.onlineUsers u }, [])
      exact ⟨a2, a3, a4⟩
    · simp [hlen]

theorem typingStep_mem (u : String) (acc : ServerState × List Emit)
    (p : String × TypingEntry) {q : String × TypingEntry}
    (h : q ∈ (typingCleanupStep u acc p).1.typingUsers) :
    q ∈ acc.1.typingUsers ∧ (jsEndsWith p.1 (":" ++ u) = true → q.1 ≠ p.1) := by
  unfold typingCleanupStep at h
  by_cases hend : jsEndsWith p.1 (":" ++ u)
  · simp only [hend, if_true] at h
    exact ⟨mem_of_mem_mapDelete h, fun _ => key_ne_of_mem_mapDelete h⟩
  · simp only [hend, if_false] at h
    exact ⟨h, fun h2 => absurd h2 (by simpa using hend)⟩

theorem typingFold_mem (u : String) (l : List (String × TypingEntry)) :
    ∀ (acc : ServerState × List Emit) (q : String × TypingEntry),
    q ∈ (l.foldl (typingCleanupStep u) acc).1.typingUsers →
    q ∈ acc.1.typingUsers ∧
      ∀ p ∈ l, jsEndsWith p.1 (":" ++ u) = true → q.1 ≠ p.1 := by
  induction l with
  | nil => intro acc q h; exact ⟨by simpa using h, by simp⟩
  | cons p rest ih =>
    intro acc q h
    rw [List.foldl_cons] at h
    obtain ⟨h1, h2⟩ := ih (typingCleanupStep u acc p) q h
    obtain ⟨h3, h4⟩ := typingStep_mem u acc p h1
    refine ⟨h3, ?_⟩
    intro p1 hp1 hend
    rcases List.mem_cons.mp hp1 with h5 | h5
    · subst h5; exact h4 hend
    · exact h2 p1 h5 hend

/-- C3 amended.  When (and only when) the disconnecting socket's
connect-time identity is truthy, the disconnect handler scrubs the location
tables: the socket's socketLocationRooms entry is gone, and in every room
the socket had been tracked in, the entry keyed by the connect-time identity
is gone; when it was additionally the user's last session, no typing entry
whose key ends in ":" + identity survives.  (A socket that connected without
an identity leaves all of its entries behind — see the counterexample.) -/
theorem disconnect_cleans_tables_for_identified (st : ServerState)
    (sock u : String) (hu : u ≠ "") :
    mapGet (handleDisconnect st sock (some u)).1.socketLocationRooms sock = none ∧
    (∀ room ∈ (mapGet st.socketLocationRooms sock).getD [],
      ∀ m, mapGet (handleDisconnect st sock (some u)).1.locationRoomUsers room =
        some m → mapGet m (some u) = none) ∧
    (∀ sockets, mapGet st.onlineUsers u = some sockets →
      (setDelete sockets sock).length = 0 →
      ∀ p ∈ (handleDisconnect st sock (some u)).1.typingUsers,
        jsEndsWith p.1 (":" ++ u) = false) := by
  have ht : truthyS (some u) = true := by simpa [truthyS] using hu
  have hpost : (handleDisconnect st sock (some u)).1 =
      { (disconnectLocationCleanup (disconnectRegistryPart st sock u).1 sock u).1 with
        adapterRooms := mapDelete
          (disconnectLocationCleanup (disconnectRegistryPart st sock u).1 sock u).1.adapterRooms
          sock } := by
    unfold handleDisconnect
    simp [ht, interp]
  obtain ⟨hr1, hr2, _⟩ := regPart_proj st sock u
  refine ⟨?_, ?_, ?_⟩
  · rw [hpost]
    show mapGet (disconnectLocationCleanup
      (disconnectRegistryPart st sock u).1 sock u).1.socketLocationRooms sock = none
    unfold disconnectLocationCleanup
    cases hsr : mapGet (disconnectRegistryPart st sock u).1.socketLocationRooms sock with
    | none => simpa using hsr
    | some rooms => simp [mapGet_mapDelete_self]
  · intro room hroom m hm
    rw [hpost] at hm
    have hm2 : mapGet (disconnectLocationCleanup
        (disconnectRegistryPart st sock u).1 sock u).1.locationRoomUsers room =
        some m := hm
    unfold disconnectLocationCleanup at hm2
    cases hsr : mapGet (disconnectRegistryPart st sock u).1.socketLocationRooms sock with
    | none =>
      rw [hr2] at hsr
      rw [hsr] at hroom
      simp at hroom
    | some rooms =>
      rw [hsr] at hm2
      simp only at hm2
      have hroom2 : room ∈ rooms := by
        rw [hr2] at hsr
        rw [hsr] at hroom
        simpa using hroom
      exact locFold_cleans u rooms ((disconnectRegistryPart st sock u).1, []) room
        hroom2 m hm2
  · intro sockets hsock hlen p hp
    rw [hpost] at hp
    have hp1 : p ∈ (disconnectLocationCleanup
        (disconnectRegistryPart st sock u).1 sock u).1.typingUsers := hp
    have htp : (disconnectLocationCleanup
        (disconnectRegistryPart st sock u).1 sock u).1.typingUsers =
        (disconnectRegistryPart st sock u).1.typingUsers := by
      unfold disconnectLocationCleanup
      cases hsr : mapGet (disconnectRegistryPart st sock u).1.socketLocationRooms sock with
      | none => rfl
      | some rooms =>
        obtain ⟨_, a2, _, _, _, _⟩ :=
          locFold_proj u rooms ((disconnectRegistryPart st sock u).1, [])
        simpa using a2
    rw [htp] at hp1
    have hreg : (disconnectRegistryPart st sock u).1 =
        (disconnectTypingCleanup
          { st with onlineUsers := mapDelete st.onlineUsers u } u).1 := by
      unfold disconnectRegistryPart
      rw [hsock]
      simp [hlen]
    rw [hreg] at hp1
    unfold disconnectTypingCleanup at hp1
    obtain ⟨hmem, hno⟩ := typingFold_mem u _ _ p hp1
    cases hE : jsEndsWith p.1 (":" ++ u) with
    | false => rfl
    | true => exact absurd rfl (hno p hmem hE)

/-- C3 witness: an identified socket that joined the FR room disconnects;
the cleanup guarantees are instantiated at that concrete history. -/
theorem disconnect_cleans_tables_for_identified_witness :
    ("u1" : String) ≠ "" ∧
    (mapGet (handleDisconnect
        (run initState
          [Action.connect "s1" (some "u1"),
           Action.joinLocationChat "s1" ⟨some "fr", some "u1", some "A"⟩,
           Action.joinLocationChat "s2" ⟨some "fr", some "u2", some "B"⟩]).1
        "s1" (some "u1")).1.socketLocationRooms "s1" = none ∧
     (∀ room ∈ (mapGet (run initState
          [Action.connect "s1" (some "u1"),
           Action.joinLocationChat "s1" ⟨some "fr", some "u1", some "A"⟩,
           Action.joinLocationChat "s2" ⟨some "fr", some "u2", some "B"⟩]).1.socketLocationRooms
          "s1").getD [],
       ∀ m, mapGet (handleDisconnect
          (run initState
            [Action.connect "s1" (some "u1"),
             Action.joinLocationChat "s1" ⟨some "fr", some "u1", some "A"⟩,
             Action.joinLocationChat "s2" ⟨some "fr", some "u2", some "B"⟩]).1
          "s1" (some "u1")).1.locationRoomUsers room = some m →
         mapGet m (some "u1") = none) ∧
     (∀ sockets, mapGet (run initState
          [Action.connect "s1" (some "u1"),
           Action.joinLocationChat "s1" ⟨some "fr", some "u1", some "A"⟩,
           Action.joinLocationChat "s2" ⟨some "fr", some "u2", some "B"⟩]).1.onlineUsers
          "u1" = some sockets →
       (setDelete sockets "s1").length = 0 →
       ∀ p ∈ (handleDisconnect
          (run initState
            [Action.connect "s1" (some "u1"),
             Action.joinLocationChat "s1" ⟨some "fr", some "u1", some "A"⟩,
             Action.joinLocationChat "s2" ⟨some "fr", some "u2", some "B"⟩]).1
          "s1" (some "u1")).1.typingUsers,
         jsEndsWith p.1 (":" ++ "u1") = false)) :=
  ⟨by decide,
   disconnect_cleans_tables_for_identified
     (run initState
       [Action.connect "s1" (some "u1"),
        Action.joinLocationChat "s1" ⟨some "fr", some "u1", some "A"⟩,
        Action.joinLocationChat "s2" ⟨some "fr", some "u2", some "B"⟩]).1
     "s1" "u1" (by decide)⟩

/-! ### C1: counting user-status broadcasts (amended part) -/

theorem mem_ite_list {β : Type _} {c : Prop} [Decidable c] {l1 l2 : List β} {e : β}
    (h : e ∈ (if c then l1 else l2)) : e ∈ l1 ∨ e ∈ l2 := by
  by_cases hc : c
  · rw [if_pos hc] at h; exact Or.inl h
  · rw [if_neg hc] at h; exact Or.inr h

theorem setAdd_ne_nil {α : Type _} [DecidableEq α] (s : List α) (a : α) :
    setAdd s a ≠ [] := by
  unfold setAdd
  by_cases hm : a ∈ s
  · simp only [hm, if_true]
    intro hnil
    rw [hnil] at hm
    exact List.not_mem_nil a hm
  · simp [hm]

theorem countUserEvent_append (t1 t2 : List Emit) (ev u : String) :
    countUserEvent (t1 ++ t2) ev u = countUserEvent t1 ev u + countUserEvent t2 ev u := by
  unfold countUserEvent
  rw [List.filter_append, List.length_append]

theorem countUserEvent_eq_zero {tr : List Emit} {ev u : String}
    (h : ∀ e ∈ tr, ¬(e.event = ev ∧ e.payload = Payload.userId u)) :
    countUserEvent tr ev u = 0 := by
  unfold countUserEvent
  rw [List.length_eq_zero, List.filter_eq_nil]
  intro e he
  simp only [Bool.and_eq_true, decide_eq_true_eq]
  exact fun hc => h e he hc

theorem countUserEvent_zero_of_payload {tr : List Emit} {ev u : String}
    (h : ∀ e ∈ tr, ∀ v, e.payload ≠ Payload.userId v) : countUserEvent tr ev u = 0 :=
  countUserEvent_eq_zero (fun e he hc => h e he u hc.2)

/-- Every handler except connect and disconnect leaves the session registry
unchanged and never emits a user-status (bare user id) payload. -/
theorem stepOther (st : ServerState) (a : Action)
    (h1 : ∀ s au, a ≠ Action.connect s au)
    (h2 : ∀ s au, a ≠ Action.disconnect s au) :
    (step st a).1.onlineUsers = st.onlineUsers ∧
    (∀ e ∈ (step st a).2, ∀ v, e.payload ≠ Payload.userId v) := by
  cases a with
  | connect s au => exact absurd rfl (h1 s au)
  | disconnect s au => exact absurd rfl (h2 s au)
  | getOnlineUsers s =>
    refine ⟨rfl, ?_⟩
    intro e he v
    simp only [step, handleGetOnlineUsers, List.mem_singleton] at he
    rw [he]
    simp
  | joinConversation s c =>
    refine ⟨rfl, ?_⟩
    intro e he v
    simp [step, handleJoinConversation] at he
  | leaveConversation s au c =>
    constructor
    · show (handleLeaveConversation st s au c).1.onlineUsers = st.onlineUsers
      unfold handleLeaveConversation
      by_cases h : truthyS au
      · simp only [h, if_true]
        rw [clearTyping_onlineUsers]
      · simp [h]
    · intro e he v
      have he2 : e ∈ (handleLeaveConversation st s au c).2 := he
      unfold handleLeaveConversation at he2
      by_cases h : truthyS au
      · simp only [h, if_true, List.mem_singleton] at he2
        rw [he2]
        simp
      · simp [h] at he2
  | sendMessage s au d =>
    constructor
    · show (handleSendMessage st s au d).1.onlineUsers = st.onlineUsers
      unfold handleSendMessage
      dsimp only
      by_cases h : truthyS au
      · simp only [h, if_true]
        rw [clearTyping_onlineUsers]
      · simp [h]
    · intro e he v
      have he2 : e ∈ (handleSendMessage st s au d).2 := he
      unfold handleSendMessage at he2
      dsimp only at he2
      rcases List.mem_append.mp he2 with h3 | h3
      · rcases List.mem_append.mp h3 with h4 | h4
        · rcases List.mem_append.mp h4 with h5 | h5
          · rcases mem_ite_list h5 with h6 | h6
            · simp only [List.mem_singleton] at h6
              rw [h6]; simp
            · simp at h6
          · rcases List.mem_cons.mp h5 with h6 | h6
            · rw [h6]; simp
            · simp only [List.mem_singleton] at h6
              rw [h6]; simp
        · rcases mem_ite_list h4 with h5 | h5
          · simp only [List.mem_singleton] at h5
            rw [h5]; simp
          · simp at h5
      · rcases mem_ite_list h3 with h4 | h4
        · cases hp : d.participantIds with
          | none => rw [hp] at h4; simp at h4
          | some pids =>
            rw [hp] at h4
            rcases List.mem_map.mp h4 with ⟨pid, _, hpe⟩
            rw [← hpe]; simp
        · simp at h4
  | typing s d =>
    constructor
    · show (handleTyping st s d).1.onlineUsers = st.onlineUsers
      unfold handleTyping
      by_cases h : (truthyS d.userId && truthyS d.conversationId) = true
      · simp only [h, if_true]
        rw [clearTyping_onlineUsers]
      · simp [h]
    · intro e he v
      have he2 : e ∈ (handleTyping st s d).2 := he
      unfold handleTyping at he2
      by_cases h : (truthyS d.userId && truthyS d.conversationId) = true
      · simp only [h, if_true, List.mem_singleton] at he2
        rw [he2]; simp
      · simp [h] at he2
  | stopTyping s d =>
    constructor
    · show (handleStopTyping st s d).1.onlineUsers = st.onlineUsers
      unfold handleStopTyping
      by_cases h : (truthyS d.userId && truthyS d.conversationId) = true
      · simp only [h, if_true]
        rw [clearTyping_onlineUsers]
      · simp [h]
    · intro e he v
      have he2 : e ∈ (handleStopTyping st s d).2 := he
      unfold handleStopTyping at he2
      by_cases h : (truthyS d.userId && truthyS d.conversationId) = true
      · simp only [h, if_true, List.mem_singleton] at he2
        rw [he2]; simp
      · simp [h] at he2
  | conversationUpdate d =>
    refine ⟨rfl, ?_⟩
    intro e he v
    simp only [step, handleConversationUpdate, List.mem_singleton] at he
    rw [he]
    simp
  | joinLocationChat s d =>
    constructor
    · show (handleJoinLocationChat st s d).1.onlineUsers = st.onlineUsers
      unfold handleJoinLocationChat addUserToLocationRoom
      by_cases h : truthyS d.countryCode <;> simp [h]
    · intro e he v
      have he2 : e ∈ (handleJoinLocationChat st s d).2 := he
      unfold handleJoinLocationChat at he2
      by_cases h : truthyS d.countryCode
      · simp only [h, if_true, List.mem_singleton] at he2
        rw [he2]
        simp [broadcastPresence, presencePayload]
      · simp [h] at he2
  | leaveLocationChat s cc uid =>
    constructor
    · show (handleLeaveLocationChat st s cc uid).1.onlineUsers = st.onlineUsers
      unfold handleLeaveLocationChat removeUserFromLocationRoom
      by_cases h : truthyS cc <;> simp [h]
    · intro e he v
      have he2 : e ∈ (handleLeaveLocationChat st s cc uid).2 := he
      unfold handleLeaveLocationChat at he2
      by_cases h : truthyS cc
      · simp only [h, if_true, List.mem_singleton] at he2
        rw [he2]
        simp [broadcastPresence, presencePayload]
      · simp [h] at he2
  | getLocationRoomUsers s cc =>
    constructor
    · show (handleGetLocationRoomUsers st s cc).1.onlineUsers = st.onlineUsers
      unfold handleGetLocationRoomUsers
      by_cases h : truthyS cc <;> simp [h]
    · intro e he v
      have he2 : e ∈ (handleGetLocationRoomUsers st s cc).2 := he
      unfold handleGetLocationRoomUsers at he2
      by_cases h : truthyS cc
      · simp only [h, if_true, List.mem_singleton] at he2
        rw [he2]
        simp [presencePayload]
      · simp [h] at he2
  | sendLocationMessage cc msg =>
    constructor
    · show (handleSendLocationMessage st cc msg).1.onlineUsers = st.onlineUsers
      unfold handleSendLocationMessage
      by_cases h : (truthyS cc && truthyS msg) = true <;> simp [h]
    · intro e he v
      have he2 : e ∈ (handleSendLocationMessage st cc msg).2 := he
      unfold handleSendLocationMessage at he2
      by_cases h : (truthyS cc && truthyS msg) = true
      · simp only [h, if_true, List.mem_singleton] at he2
        rw [he2]; simp
      · simp [h] at he2
  | locationChatTyping s cc uid un =>
    constructor
    · show (handleLocationChatTyping st s cc uid un).1.onlineUsers = st.onlineUsers
      unfold handleLocationChatTyping
      by_cases h : (truthyS cc && truthyS uid) = true <;> simp [h]
    · intro e he v
      have he2 : e ∈ (handleLocationChatTyping st s cc uid un).2 := he
      unfold handleLocationChatTyping at he2
      by_cases h : (truthyS cc && truthyS uid) = true
      · simp only [h, if_true, List.mem_singleton] at he2
        rw [he2]; simp
      · simp [h] at he2
  | locationChatStopTyping s cc uid =>
    constructor
    · show (handleLocationChatStopTyping st s cc uid).1.onlineUsers = st.onlineUsers
      unfold handleLocationChatStopTyping
      by_cases h : (truthyS cc && truthyS uid) = true <;> simp [h]
    · intro e he v
      have he2 : e ∈ (handleLocationChatStopTyping st s cc uid).2 := he
      unfold handleLocationChatStopTyping at he2
      by_cases h : (truthyS cc && truthyS uid) = true
      · simp only [h, if_true, List.mem_singleton] at he2
        rw [he2]; simp
      · simp [h] at he2
  | timerFire tid =>
    constructor
    · show (fireTimer st tid).1.onlineUsers = st.onlineUsers
      unfold fireTimer
      split <;> rfl
    · intro e he v
      have he2 : e ∈ (fireTimer st tid).2 := he
      unfold fireTimer at he2
      cases hf : st.timers.find? (fun t => t.id = tid) with
      | none => rw [hf] at he2; simp at he2
      | some t =>
        rw [hf] at he2
        simp only [List.mem_singleton] at he2
        rw [he2]; simp

theorem isEmpty_false_of_ne_nil {α : Type _} {l : List α} (h : l ≠ []) :
    l.isEmpty = false := by
  cases l with
  | nil => exact absurd rfl h
  | cons a t => rfl

theorem ne_nil_of_length_ne_zero {α : Type _} {l : List α} (h : l.length ≠ 0) :
    l ≠ [] := by
  intro hnil
  rw [hnil] at h
  exact h rfl

theorem userOnlineNow_congr {a b : ServerState} (h : a.onlineUsers = b.onlineUsers)
    (u : String) : userOnlineNow a u = userOnlineNow b u := by
  unfold userOnlineNow
  rw [h]

theorem regInv_congr {a b : ServerState} (h : a.onlineUsers = b.onlineUsers)
    (hr : RegInv a) : RegInv b := by
  intro v s hs
  apply hr v s
  rw [h]
  exact hs

theorem countUserEvent_cons (e : Emit) (tr : List Emit) (ev u : String) :
    countUserEvent (e :: tr) ev u =
      (if e.event = ev ∧ e.payload = Payload.userId u then 1 else 0) +
        countUserEvent tr ev u := by
  unfold countUserEvent
  rw [List.filter_cons]
  by_cases h : e.event = ev ∧ e.payload = Payload.userId u
  · simp [h, Nat.add_comm]
  · simp only [decide_eq_true_eq, Bool.and_eq_true]
    rw [if_neg (by simpa using h), if_neg h]
    simp

theorem typingFold_payloads (u : String) (l : List (String × TypingEntry)) :
    ∀ (acc : ServerState × List Emit),
    ∀ e ∈ (l.foldl (typingCleanupStep u) acc).2,
      e ∈ acc.2 ∨ ∀ v, e.payload ≠ Payload.userId v := by
  induction l with
  | nil => intro acc e he; exact Or.inl (by simpa using he)
  | cons p rest ih =>
    intro acc e he
    rw [List.foldl_cons] at he
    rcases ih (typingCleanupStep u acc p) e he with h1 | h1
    · unfold typingCleanupStep at h1
      by_cases hend : jsEndsWith p.1 (":" ++ u)
      · simp only [hend, if_true] at h1
        rcases List.mem_append.mp h1 with h2 | h2
        · exact Or.inl h2
        · right
          intro v
          have he3 : e = ⟨Target.room ("conversation:" ++ firstSegment p.1),
              "userStopTyping", Payload.stopTyping (some u) (some (firstSegment p.1))⟩ := by
            simpa using h2
          rw [he3]
          simp
      · simp only [hend, if_false] at h1
        exact Or.inl h1
    · exact Or.inr h1

theorem locCleanup_onlineUsers (st : ServerState) (sock u : String) :
    (disconnectLocationCleanup st sock u).1.onlineUsers = st.onlineUsers := by
  unfold disconnectLocationCleanup
  cases hm : mapGet st.socketLocationRooms sock with
  | none => rfl
  | some rooms =>
    obtain ⟨a1, _⟩ := locFold_proj u rooms (st, [])
    simpa using a1

theorem locCleanup_payloads (st : ServerState) (sock u : String) :
    ∀ e ∈ (disconnectLocationCleanup st sock u).2,
      ∀ v, e.payload ≠ Payload.userId v := by
  intro e he v
  unfold disconnectLocationCleanup at he
  cases hm : mapGet st.socketLocationRooms sock with
  | none => rw [hm] at he; simp at he
  | some rooms =>
    rw [hm] at he
    simp only at he
    rcases locFold_emits u rooms (st, []) e he with h | h
    · simp at h
    · obtain ⟨room, _, _, hp⟩ := h
      rw [hp]
      simp [presencePayload]

theorem connect_count_online (st : ServerState) (s u : String) (hu : u ≠ "")
    (au : Option String) :
    countUserEvent (handleConnect st s au).2 "userOnline" u =
      if au = some u then 1 else 0 := by
  unfold handleConnect
  by_cases h : truthyS au = true
  · simp only [h, if_true]
    by_cases hau : au = some u
    · rw [if_pos hau, hau]
      simp [countUserEvent, interp]
    · rw [if_neg hau]
      apply countUserEvent_eq_zero
      intro e he hc
      simp only [List.mem_singleton] at he
      rw [he] at hc
      cases au with
      | none => simp [truthyS] at h
      | some v =>
        have : Payload.userId v = Payload.userId u := hc.2
        injection this with hvu
        exact hau (by rw [hvu])
  · have hau : au ≠ some u := by
      intro hh
      rw [hh] at h
      simp [truthyS, hu] at h
    rw [if_neg (by simpa using h), if_neg hau]
    rfl

theorem connect_count_offline (st : ServerState) (s u : String) (au : Option String) :
    countUserEvent (handleConnect st s au).2 "userOffline" u = 0 := by
  unfold handleConnect
  by_cases h : truthyS au = true
  · simp only [h, if_true]
    apply countUserEvent_eq_zero
    intro e he hc
    simp only [List.mem_singleton] at he
    rw [he] at hc
    have hlit : ¬(("userOnline" : String) = "userOffline") := by decide
    exact hlit hc.1
  · rw [if_neg (by simpa using h)]
    rfl

theorem connect_onlineUsers (st : ServerState) (s : String) (au : Option String) :
    (handleConnect st s au).1.onlineUsers =
      if truthyS au = true then
        mapSet st.onlineUsers (interp au)
          (setAdd ((mapGet st.onlineUsers (interp au)).getD []) s)
      else st.onlineUsers := by
  unfold handleConnect
  by_cases h : truthyS au = true
  · simp [h]
  · simp [h]

theorem connect_offline_indicator (st : ServerState) (s u : String) (au : Option String) :
    (userOnlineNow st u && !userOnlineNow (handleConnect st s au).1 u) = false := by
  have hON := connect_onlineUsers st s au
  by_cases h : truthyS au = true
  · rw [if_pos h] at hON
    by_cases hau : u = interp au
    · have h2 : userOnlineNow (handleConnect st s au).1 u = true := by
        unfold userOnlineNow
        rw [hON, hau, mapGet_mapSet_self]
        simp [isEmpty_false_of_ne_nil (setAdd_ne_nil _ _)]
      rw [h2]
      simp
    · have h2 : userOnlineNow (handleConnect st s au).1 u = userOnlineNow st u := by
        unfold userOnlineNow
        rw [hON, mapGet_mapSet_ne _ _ hau]
      rw [h2]
      exact Bool.and_not_self _
  · rw [if_neg h] at hON
    rw [userOnlineNow_congr hON]
    exact Bool.and_not_self _

theorem disconnect_onlineUsers_eq (st : ServerState) (s : String) (au : Option String)
    (h : truthyS au = true) :
    (handleDisconnect st s au).1.onlineUsers =
      (disconnectRegistryPart st s (interp au)).1.onlineUsers := by
  unfold handleDisconnect
  simp only [h, if_true]
  exact locCleanup_onlineUsers (disconnectRegistryPart st s (interp au)).1 s (interp au)

theorem regPart_onlineUsers (st : ServerState) (s u0 : String) :
    (disconnectRegistryPart st s u0).1.onlineUsers =
      match mapGet st.onlineUsers u0 with
      | none => st.onlineUsers
      | some sockets =>
        if (setDelete sockets s).length = 0 then mapDelete st.onlineUsers u0
        else mapSet st.onlineUsers u0 (setDelete sockets s) := by
  unfold disconnectRegistryPart
  cases hm : mapGet st.onlineUsers u0 with
  | none => rfl
  | some sockets =>
    by_cases hlen : (setDelete sockets s).length = 0
    · simp only [hlen, if_true]
      obtain ⟨a1, _⟩ := typingFold_proj u0
        ({ st with onlineUsers := mapDelete st.onlineUsers u0 }).typingUsers
        ({ st with onlineUsers := mapDelete st.onlineUsers u0 }, [])
      simpa using a1
    · simp [hlen]

theorem regPart_count (st : ServerState) (s u0 u : String) :
    countUserEvent (disconnectRegistryPart st s u0).2 "userOffline" u =
      match mapGet st.onlineUsers u0 with
      | none => 0
      | some sockets =>
        if (setDelete sockets s).length = 0 then (if u0 = u then 1 else 0) else 0 := by
  unfold disconnectRegistryPart
  cases hm : mapGet st.onlineUsers u0 with
  | none => rfl
  | some sockets =>
    by_cases hlen : (setDelete sockets s).length = 0
    · simp only [hlen, if_true]
      rw [countUserEvent_cons]
      have hz : countUserEvent (disconnectTypingCleanup
          { st with onlineUsers := mapDelete st.onlineUsers u0 } u0).2 "userOffline" u = 0 := by
        apply countUserEvent_zero_of_payload
        intro e he v
        unfold disconnectTypingCleanup at he
        rcases typingFold_payloads u0 _ _ e he with h2 | h2
        · simp at h2
        · exact h2 v
      rw [hz]
      by_cases hu0 : u0 = u
      · rw [if_pos hu0]
        rw [if_pos ⟨rfl, by rw [hu0]⟩]
      · rw [if_neg hu0]
        have hne : ¬((⟨Target.all, "userOffline", Payload.userId u0⟩ : Emit).event =
            "userOffline" ∧ (⟨Target.all, "userOffline",
              Payload.userId u0⟩ : Emit).payload = Payload.userId u) := by
          intro hc
          have h3 := hc.2
          injection h3 with h4
          exact hu0 h4
        rw [if_neg hne]
    · simp [hlen]
      rfl

theorem disconnect_count_online (st : ServerState) (s u : String) (au : Option String) :
    countUserEvent (handleDisconnect st s au).2 "userOnline" u = 0 := by
  unfold handleDisconnect
  by_cases h : truthyS au = true
  · simp only [h, if_true]
    rw [countUserEvent_append]
    have hz2 : countUserEvent (disconnectLocationCleanup
        (disconnectRegistryPart st s (interp au)).1 s (interp au)).2 "userOnline" u = 0 :=
      countUserEvent_zero_of_payload (locCleanup_payloads _ s (interp au))
    have hz1 : countUserEvent (disconnectRegistryPart st s (interp au)).2
        "userOnline" u = 0 := by
      unfold disconnectRegistryPart
      cases hm : mapGet st.onlineUsers (interp au) with
      | none => rfl
      | some sockets =>
        by_cases hlen : (setDelete sockets s).length = 0
        · simp only [hlen, if_true]
          rw [countUserEvent_cons]
          have hz : countUserEvent (disconnectTypingCleanup
              { st with onlineUsers := mapDelete st.onlineUsers (interp au) }
              (interp au)).2 "userOnline" u = 0 := by
            apply countUserEvent_zero_of_payload
            intro e he v
            unfold disconnectTypingCleanup at he
            rcases typingFold_payloads (interp au) _ _ e he with h2 | h2
            · simp at h2
            · exact h2 v
          rw [hz]
          have hlit : ¬(("userOffline" : String) = "userOnline") := by decide
          have hne : ¬((⟨Target.all, "userOffline",
              Payload.userId (interp au)⟩ : Emit).event = "userOnline" ∧
              (⟨Target.all, "userOffline", Payload.userId (interp au)⟩ : Emit).payload =
              Payload.userId u) := fun hc => hlit hc.1
          rw [if_neg hne]
        · simp [hlen]
          rfl
    rw [hz1, hz2]
  · rw [if_neg (by simpa using h)]
    rfl

theorem userOnlineNow_eq_of_field {a : ServerState} {m : List (String × List String)}
    (h : a.onlineUsers = m) (u : String) :
    userOnlineNow a u = !((mapGet m u).getD []).isEmpty := by
  unfold userOnlineNow
  rw [h]

theorem disconnect_count_offline (st : ServerState) (s u : String) (au : Option String)
    (hreg : RegInv st) :
    countUserEvent (handleDisconnect st s au).2 "userOffline" u =
      if (userOnlineNow st u && !userOnlineNow (handleDisconnect st s au).1 u) = true
      then 1 else 0 := by
  by_cases h : truthyS au = true
  · have htr : (handleDisconnect st s au).2 =
        (disconnectRegistryPart st s (interp au)).2 ++
        (disconnectLocationCleanup (disconnectRegistryPart st s (interp au)).1 s
          (interp au)).2 := by
      unfold handleDisconnect
      simp [h]
    rw [htr, countUserEvent_append,
      countUserEvent_zero_of_payload (locCleanup_payloads _ s (interp au)),
      regPart_count]
    have hON : (handleDisconnect st s au).1.onlineUsers =
        (disconnectRegistryPart st s (interp au)).1.onlineUsers :=
      disconnect_onlineUsers_eq st s au h
    cases hm : mapGet st.onlineUsers (interp au) with
    | none =>
      have hONr : (disconnectRegistryPart st s (interp au)).1.onlineUsers =
          st.onlineUsers := by
        rw [regPart_onlineUsers, hm]
      rw [userOnlineNow_eq_of_field (hON.trans hONr)]
      unfold userOnlineNow
      rw [Bool.and_not_self]
      simp
    | some sockets =>
      have hsne : sockets ≠ [] := hreg (interp au) sockets hm
      by_cases hlen : (setDelete sockets s).length = 0
      · have hONr : (disconnectRegistryPart st s (interp au)).1.onlineUsers =
            mapDelete st.onlineUsers (interp au) := by
          rw [regPart_onlineUsers, hm]
          simp [hlen]
        rw [userOnlineNow_eq_of_field (hON.trans hONr)]
        simp only [hlen, if_true]
        by_cases hu0 : interp au = u
        · subst hu0
          rw [if_pos rfl, mapGet_mapDelete_self]
          unfold userOnlineNow
          rw [hm]
          simp [isEmpty_false_of_ne_nil hsne]
        · rw [if_neg hu0, mapGet_mapDelete_ne _ (fun hh => hu0 hh.symm)]
          unfold userOnlineNow
          rw [Bool.and_not_self]
          simp
      · have hONr : (disconnectRegistryPart st s (interp au)).1.onlineUsers =
            mapSet st.onlineUsers (interp au) (setDelete sockets s) := by
          rw [regPart_onlineUsers, hm]
          simp [hlen]
        rw [userOnlineNow_eq_of_field (hON.trans hONr)]
        simp only [hlen, if_false]
        by_cases hu0 : interp au = u
        · subst hu0
          rw [mapGet_mapSet_self]
          simp [isEmpty_false_of_ne_nil (ne_nil_of_length_ne_zero hlen)]
        · rw [mapGet_mapSet_ne _ _ (fun hh => hu0 hh.symm)]
          unfold userOnlineNow
          rw [Bool.and_not_self]
          simp
  · have htr : (handleDisconnect st s au).2 = [] := by
      unfold handleDisconnect
      rw [if_neg (by simpa using h)]
    have hON : (handleDisconnect st s au).1.onlineUsers = st.onlineUsers := by
      unfold handleDisconnect
      rw [if_neg (by simpa using h)]
    rw [htr, userOnlineNow_eq_of_field hON]
    unfold userOnlineNow
    rw [Bool.and_not_self]
    simp [countUserEvent]

theorem regInv_of_field {a : ServerState} {m : List (String × List String)}
    (h : a.onlineUsers = m) (hm : ∀ v sset, mapGet m v = some sset → sset ≠ []) :
    RegInv a := by
  intro v sset hv
  rw [h] at hv
  exact hm v sset hv

theorem regInv_step (st : ServerState) (a : Action) (h : RegInv st) :
    RegInv (step st a).1 := by
  cases a with
  | connect s au =>
    apply regInv_of_field (connect_onlineUsers st s au)
    by_cases ht : truthyS au = true
    · rw [if_pos ht]
      intro v sset hv
      by_cases hveq : v = interp au
      · subst hveq
        rw [mapGet_mapSet_self] at hv
        injection hv with hv
        rw [← hv]
        exact setAdd_ne_nil _ _
      · rw [mapGet_mapSet_ne _ _ hveq] at hv
        exact h v sset hv
    · rw [if_neg ht]
      exact h
  | disconnect s au =>
    by_cases ht : truthyS au = true
    · apply regInv_of_field ((disconnect_onlineUsers_eq st s au ht).trans
        (regPart_onlineUsers st s (interp au)))
      cases hm : mapGet st.onlineUsers (interp au) with
      | none => exact h
      | some sockets =>
        by_cases hlen : (setDelete sockets s).length = 0
        · simp only [hlen, if_true]
          intro v sset hv
          by_cases hveq : v = interp au
          · subst hveq
            rw [mapGet_mapDelete_self] at hv
            cases hv
          · rw [mapGet_mapDelete_ne _ hveq] at hv
            exact h v sset hv
        · simp only [hlen, if_false]
          intro v sset hv
          by_cases hveq : v = interp au
          · subst hveq
            rw [mapGet_mapSet_self] at hv
            injection hv with hv
            rw [← hv]
            exact ne_nil_of_length_ne_zero hlen
          · rw [mapGet_mapSet_ne _ _ hveq] at hv
            exact h v sset hv
    · have hON : (handleDisconnect st s au).1.onlineUsers = st.onlineUsers := by
        unfold handleDisconnect
        rw [if_neg (by simpa using ht)]
      exact regInv_of_field hON (fun v sset hv => h v sset hv)
  | getOnlineUsers s =>
    exact regInv_of_field (stepOther st (Action.getOnlineUsers s)
      (by intro s1 au1 hc; cases hc) (by intro s1 au1 hc; cases hc)).1
      (fun v sset hv => h v sset hv)
  | joinConversation s c =>
    exact regInv_of_field (stepOther st (Action.joinConversation s c)
      (by intro s1 au1 hc; cases hc) (by intro s1 au1 hc; cases hc)).1
      (fun v sset hv => h v sset hv)
  | leaveConversation s au c =>
    exact regInv_of_field (stepOther st (Action.leaveConversation s au c)
      (by intro s1 au1 hc; cases hc) (by intro s1 au1 hc; cases hc)).1
      (fun v sset hv => h v sset hv)
  | sendMessage s au d =>
    exact regInv_of_field (stepOther st (Action.sendMessage s au d)
      (by intro s1 au1 hc; cases hc) (by intro s1 au1 hc; cases hc)).1
      (fun v sset hv => h v sset hv)
  | typing s d =>
    exact regInv_of_field (stepOther st (Action.typing s d)
      (by intro s1 au1 hc; cases hc) (by intro s1 au1 hc; cases hc)).1
      (fun v sset hv => h v sset hv)
  | stopTyping s d =>
    exact regInv_of_field (stepOther st (Action.stopTyping s d)
      (by intro s1 au1 hc; cases hc) (by intro s1 au1 hc; cases hc)).1
      (fun v sset hv => h v sset hv)
  | conversationUpdate d =>
    exact regInv_of_field (stepOther st (Action.conversationUpdate d)
      (by intro s1 au1 hc; cases hc) (by intro s1 au1 hc; cases hc)).1
      (fun v sset hv => h v sset hv)
  | joinLocationChat s d =>
    exact regInv_of_field (stepOther st (Action.joinLocationChat s d)
      (by intro s1 au1 hc; cases hc) (by intro s1 au1 hc; cases hc)).1
      (fun v sset hv => h v sset hv)
  | leaveLocationChat s cc uid =>
    exact regInv_of_field (stepOther st (Action.leaveLocationChat s cc uid)
      (by intro s1 au1 hc; cases hc) (by intro s1 au1 hc; cases hc)).1
      (fun v sset hv => h v sset hv)
  | getLocationRoomUsers s cc =>
    exact regInv_of_field (stepOther st (Action.getLocationRoomUsers s cc)
      (by intro s1 au1 hc; cases hc) (by intro s1 au1 hc; cases hc)).1
      (fun v sset hv => h v sset hv)
  | sendLocationMessage cc msg =>
    exact regInv_of_field (stepOther st (Action.sendLocationMessage cc msg)
      (by intro s1 au1 hc; cases hc) (by intro s1 au1 hc; cases hc)).1
      (fun v sset hv => h v sset hv)
  | locationChatTyping s cc uid un =>
    exact regInv_of_field (stepOther st (Action.locationChatTyping s cc uid un)
      (by intro s1 au1 hc; cases hc) (by intro s1 au1 hc; cases hc)).1
      (fun v sset hv => h v sset hv)
  | locationChatStopTyping s cc uid =>
    exact regInv_of_field (stepOther st (Action.locationChatStopTyping s cc uid)
      (by intro s1 au1 hc; cases hc) (by intro s1 au1 hc; cases hc)).1
      (fun v sset hv => h v sset hv)
  | timerFire tid =>
    exact regInv_of_field (stepOther st (Action.timerFire tid)
      (by intro s1 au1 hc; cases hc) (by intro s1 au1 hc; cases hc)).1
      (fun v sset hv => h v sset hv)

theorem countConnectsOf_cons (u : String) (a : Action) (rest : List Action) :
    countConnectsOf u (a :: rest) =
      (if connectPred u a = true then 1 else 0) + countConnectsOf u rest := by
  unfold countConnectsOf
  rw [List.filter_cons]
  by_cases hp : connectPred u a = true
  · simp [hp, Nat.add_comm]
  · simp [hp]

theorem run_counts (u : String) (hu : u ≠ "") (acts : List Action) :
    ∀ (st : ServerState), RegInv st →
    countUserEvent (run st acts).2 "userOnline" u = countConnectsOf u acts ∧
    countUserEvent (run st acts).2 "userOffline" u = offlineTransitions u st acts := by
  induction acts with
  | nil => intro st _; exact ⟨rfl, rfl⟩
  | cons a rest ih =>
    intro st hreg
    obtain ⟨ih1, ih2⟩ := ih (step st a).1 (regInv_step st a hreg)
    have hrun2 : (run st (a :: rest)).2 = (step st a).2 ++ (run (step st a).1 rest).2 := rfl
    have hstep1 : countUserEvent (step st a).2 "userOnline" u =
        (if connectPred u a = true then 1 else 0) := by
      cases a with
      | connect s au =>
        show countUserEvent (handleConnect st s au).2 "userOnline" u = _
        rw [connect_count_online st s u hu au]
        by_cases hau : au = some u
        · rw [if_pos hau, if_pos (by simp [connectPred, hau])]
        · rw [if_neg hau, if_neg (by simp [connectPred, hau])]
      | disconnect s au =>
        show countUserEvent (handleDisconnect st s au).2 "userOnline" u = _
        rw [disconnect_count_online st s u au]
        rfl
      | getOnlineUsers s =>
        rw [countUserEvent_zero_of_payload (stepOther st (Action.getOnlineUsers s)
          (by intro s1 au1 hc; cases hc) (by intro s1 au1 hc; cases hc)).2]
        rfl
      | joinConversation s c =>
        rw [countUserEvent_zero_of_payload (stepOther st (Action.joinConversation s c)
          (by intro s1 au1 hc; cases hc) (by intro s1 au1 hc; cases hc)).2]
        rfl
      | leaveConversation s au c =>
        rw [countUserEvent_zero_of_payload (stepOther st (Action.leaveConversation s au c)
          (by intro s1 au1 hc; cases hc) (by intro s1 au1 hc; cases hc)).2]
        rfl
      | sendMessage s au d =>
        rw [countUserEvent_zero_of_payload (stepOther st (Action.sendMessage s au d)
          (by intro s1 au1 hc; cases hc) (by intro s1 au1 hc; cases hc)).2]
        rfl
      | typing s d =>
        rw [countUserEvent_zero_of_payload (stepOther st (Action.typing s d)
          (by intro s1 au1 hc; cases hc) (by intro s1 au1 hc; cases hc)).2]
        rfl
      | stopTyping s d =>
        rw [countUserEvent_zero_of_payload (stepOther st (Action.stopTyping s d)
          (by intro s1 au1 hc; cases hc) (by intro s1 au1 hc; cases hc)).2]
        rfl
      | conversationUpdate d =>
        rw [countUserEvent_zero_of_payload (stepOther st (Action.conversationUpdate d)
          (by intro s1 au1 hc; cases hc) (by intro s1 au1 hc; cases hc)).2]
        rfl
      | joinLocationChat s d =>
        rw [countUserEvent_zero_of_payload (stepOther st (Action.joinLocationChat s d)
          (by intro s1 au1 hc; cases hc) (by intro s1 au1 hc; cases hc)).2]
        rfl
      | leaveLocationChat s cc uid =>
        rw [countUserEvent_zero_of_payload (stepOther st (Action.leaveLocationChat s cc uid)
          (by intro s1 au1 hc; cases hc) (by intro s1 au1 hc; cases hc)).2]
        rfl
      | getLocationRoomUsers s cc =>
        rw [countUserEvent_zero_of_payload (stepOther st (Action.getLocationRoomUsers s cc)
          (by intro s1 au1 hc; cases hc) (by intro s1 au1 hc; cases hc)).2]
        rfl
      | sendLocationMessage cc msg =>
        rw [countUserEvent_zero_of_payload (stepOther st (Action.sendLocationMessage cc msg)
          (by intro s1 au1 hc; cases hc) (by intro s1 au1 hc; cases hc)).2]
        rfl
      | locationChatTyping s cc uid un =>
        rw [countUserEvent_zero_of_payload (stepOther st
          (Action.locationChatTyping s cc uid un)
          (by intro s1 au1 hc; cases hc) (by intro s1 au1 hc; cases hc)).2]
        rfl
      | locationChatStopTyping s cc uid =>
        rw [countUserEvent_zero_of_payload (stepOther st
          (Action.locationChatStopTyping s cc uid)
          (by intro s1 au1 hc; cases hc) (by intro s1 au1 hc; cases hc)).2]
        rfl
      | timerFire tid =>
        rw [countUserEvent_zero_of_payload (stepOther st (Action.timerFire tid)
          (by intro s1 au1 hc; cases hc) (by intro s1 au1 hc; cases hc)).2]
        rfl
    have hstep2 : countUserEvent (step st a).2 "userOffline" u =
        (if (userOnlineNow st u && !userOnlineNow (step st a).1 u) = true then 1 else 0) := by
      cases a with
      | connect s au =>
        show countUserEvent (handleConnect st s au).2 "userOffline" u =
          if (userOnlineNow st u && !userOnlineNow (handleConnect st s au).1 u) = true
          then 1 else 0
        rw [connect_count_offline st s u au, connect_offline_indicator st s u au]
        rfl
      | disconnect s au =>
        exact disconnect_count_offline st s u au hreg
      | getOnlineUsers s =>
        obtain ⟨hon, hpl⟩ := stepOther st (Action.getOnlineUsers s)
          (by intro s1 au1 hc; cases hc) (by intro s1 au1 hc; cases hc)
        rw [countUserEvent_zero_of_payload hpl, userOnlineNow_eq_of_field hon]
        unfold userOnlineNow
        rw [Bool.and_not_self]
        rfl
      | joinConversation s c =>
        obtain ⟨hon, hpl⟩ := stepOther st (Action.joinConversation s c)
          (by intro s1 au1 hc; cases hc) (by intro s1 au1 hc; cases hc)
        rw [countUserEvent_zero_of_payload hpl, userOnlineNow_eq_of_field hon]
        unfold userOnlineNow
        rw [Bool.and_not_self]
        rfl
      | leaveConversation s au c =>
        obtain ⟨hon, hpl⟩ := stepOther st (Action.leaveConversation s au c)
          (by intro s1 au1 hc; cases hc) (by intro s1 au1 hc; cases hc)
        rw [countUserEvent_zero_of_payload hpl, userOnlineNow_eq_of_field hon]
        unfold userOnlineNow
        rw [Bool.and_not_self]
        rfl
      | sendMessage s au d =>
        obtain ⟨hon, hpl⟩ := stepOther st (Action.sendMessage s au d)
          (by intro s1 au1 hc; cases hc) (by intro s1 au1 hc; cases hc)
        rw [countUserEvent_zero_of_payload hpl, userOnlineNow_eq_of_field hon]
        unfold userOnlineNow
        rw [Bool.and_not_self]
        rfl
      | typing s d =>
        obtain ⟨hon, hpl⟩ := stepOther st (Action.typing s d)
          (by intro s1 au1 hc; cases hc) (by intro s1 au1 hc; cases hc)
        rw [countUserEvent_zero_of_payload hpl, userOnlineNow_eq_of_field hon]
        unfold userOnlineNow
        rw [Bool.and_not_self]
        rfl
      | stopTyping s d =>
        obtain ⟨hon, hpl⟩ := stepOther st (Action.stopTyping s d)
          (by intro s1 au1 hc; cases hc) (by intro s1 au1 hc; cases hc)
        rw [countUserEvent_zero_of_payload hpl, userOnlineNow_eq_of_field hon]
        unfold userOnlineNow
        rw [Bool.and_not_self]
        rfl
      | conversationUpdate d =>
        obtain ⟨hon, hpl⟩ := stepOther st (Action.conversationUpdate d)
          (by intro s1 au1 hc; cases hc) (by intro s1 au1 hc; cases hc)
        rw [countUserEvent_zero_of_payload hpl, userOnlineNow_eq_of_field hon]
        unfold userOnlineNow
        rw [Bool.and_not_self]
        rfl
      | joinLocationChat s d =>
        obtain ⟨hon, hpl⟩ := stepOther st (Action.joinLocationChat s d)
          (by intro s1 au1 hc; cases hc) (by intro s1 au1 hc; cases hc)
        rw [countUserEvent_zero_of_payload hpl, userOnlineNow_eq_of_field hon]
        unfold userOnlineNow
        rw [Bool.and_not_self]
        rfl
      | leaveLocationChat s cc uid =>
        obtain ⟨hon, hpl⟩ := stepOther st (Action.leaveLocationChat s cc uid)
          (by intro s1 au1 hc; cases hc) (by intro s1 au1 hc; cases hc)
        rw [countUserEvent_zero_of_payload hpl, userOnlineNow_eq_of_field hon]
        unfold userOnlineNow
        rw [Bool.and_not_self]
        rfl
      | getLocationRoomUsers s cc =>
        obtain ⟨hon, hpl⟩ := stepOther st (Action.getLocationRoomUsers s cc)
          (by intro s1 au1 hc; cases hc) (by intro s1 au1 hc; cases hc)
        rw [countUserEvent_zero_of_payload hpl, userOnlineNow_eq_of_field hon]
        unfold userOnlineNow
        rw [Bool.and_not_self]
        rfl
      | sendLocationMessage cc msg =>
        obtain ⟨hon, hpl⟩ := stepOther st (Action.sendLocationMessage cc msg)
          (by intro s1 au1 hc; cases hc) (by intro s1 au1 hc; cases hc)
        rw [countUserEvent_zero_of_payload hpl, userOnlineNow_eq_of_field hon]
        unfold userOnlineNow
        rw [Bool.and_not_self]
        rfl
      | locationChatTyping s cc uid un =>
        obtain ⟨hon, hpl⟩ := stepOther st (Action.locationChatTyping s cc uid un)
          (by intro s1 au1 hc; cases hc) (by intro s1 au1 hc; cases hc)
        rw [countUserEvent_zero_of_payload hpl, userOnlineNow_eq_of_field hon]
        unfold userOnlineNow
        rw [Bool.and_not_self]
        rfl
      | locationChatStopTyping s cc uid =>
        obtain ⟨hon, hpl⟩ := stepOther st (Action.locationChatStopTyping s cc uid)
          (by intro s1 au1 hc; cases hc) (by intro s1 au1 hc; cases hc)
        rw [countUserEvent_zero_of_payload hpl, userOnlineNow_eq_of_field hon]
        unfold userOnlineNow
        rw [Bool.and_not_self]
        rfl
      | timerFire tid =>
        obtain ⟨hon, hpl⟩ := stepOther st (Action.timerFire tid)
          (by intro s1 au1 hc; cases hc) (by intro s1 au1 hc; cases hc)
        rw [countUserEvent_zero_of_payload hpl, userOnlineNow_eq_of_field hon]
        unfold userOnlineNow
        rw [Bool.and_not_self]
        rfl
    constructor
    · rw [hrun2, countUserEvent_append, hstep1, ih1, countConnectsOf_cons]
    · rw [hrun2, countUserEvent_append, hstep2, ih2]
      rfl

/-! ### C1: the amended claim -/

/-- C1 amended.  Over every event history from the initial state, the
'userOnline' event for a (truthy) identity is broadcast exactly once per
connect event carrying that identity — hence a single zero-to-non-zero
transition of the session set may be accompanied by several 'userOnline'
broadcasts — while 'userOffline' is broadcast exactly once per transition
of the session set from non-zero to zero, regardless of how many sessions
are added or removed in between. -/
theorem user_status_event_counts (u : String) (hu : u ≠ "") (acts : List Action) :
    countUserEvent (run initState acts).2 "userOnline" u = countConnectsOf u acts ∧
    countUserEvent (run initState acts).2 "userOffline" u =
      offlineTransitions u initState acts :=
  run_counts u hu acts initState (fun _ _ hv => nomatch hv)

/-- C1 witness: a connect/connect/disconnect/disconnect history for one
identity, with two userOnline broadcasts and one userOffline broadcast. -/
theorem user_status_event_counts_witness :
    ("u1" : String) ≠ "" ∧
    (countUserEvent (run initState
        [Action.connect "s1" (some "u1"), Action.connect "s2" (some "u1"),
         Action.disconnect "s1" (some "u1"), Action.disconnect "s2" (some "u1")]).2
        "userOnline" "u1" =
      countConnectsOf "u1"
        [Action.connect "s1" (some "u1"), Action.connect "s2" (some "u1"),
         Action.disconnect "s1" (some "u1"), Action.disconnect "s2" (some "u1")] ∧
     countUserEvent (run initState
        [Action.connect "s1" (some "u1"), Action.connect "s2" (some "u1"),
         Action.disconnect "s1" (some "u1"), Action.disconnect "s2" (some "u1")]).2
        "userOffline" "u1" =
      offlineTransitions "u1" initState
        [Action.connect "s1" (some "u1"), Action.connect "s2" (some "u1"),
         Action.disconnect "s1" (some "u1"), Action.disconnect "s2" (some "u1")]) :=
  ⟨by decide,
   user_status_event_counts "u1" (by decide)
     [Action.connect "s1" (some "u1"), Action.connect "s2" (some "u1"),
      Action.disconnect "s1" (some "u1"), Action.disconnect "s2" (some "u1")]⟩

/-! ### C4/C10: the typing-timer machinery -/

theorem clearTyping_eq_of_lookup {st : ServerState} {cid uid : Option String}
    {e : TypingEntry} (h : mapGet st.typingUsers (typingKey cid uid) = some e) :
    clearTypingTimeout st cid uid =
      { st with timers := st.timers.filter (fun t => t.id ≠ e.timeout),
                typingUsers := mapDelete st.typingUsers (typingKey cid uid) } := by
  unfold clearTypingTimeout
  dsimp only
  rw [h]

theorem clearTyping_eq_of_none {st : ServerState} {cid uid : Option String}
    (h : mapGet st.typingUsers (typingKey cid uid) = none) :
    clearTypingTimeout st cid uid = st := by
  unfold clearTypingTimeout
  dsimp only
  rw [h]

theorem clearTyping_nextTimerId (st : ServerState) (cid uid : Option String) :
    (clearTypingTimeout st cid uid).nextTimerId = st.nextTimerId := by
  unfold clearTypingTimeout
  dsimp only
  split <;> rfl

theorem clearTyping_timers_subset (st : ServerState) (cid uid : Option String) :
    ∀ t ∈ (clearTypingTimeout st cid uid).timers, t ∈ st.timers := by
  intro t ht
  unfold clearTypingTimeout at ht
  dsimp only at ht
  revert ht
  split
  · intro ht
    exact List.mem_of_mem_filter ht
  · intro ht
    exact ht

theorem clearTyping_no_key_timer {st : ServerState} (cid uid : Option String)
    (h : TypingInv st) :
    ∀ t ∈ (clearTypingTimeout st cid uid).timers, t.key ≠ typingKey cid uid := by
  intro t ht hkey
  cases hl : mapGet st.typingUsers (typingKey cid uid) with
  | none =>
    rw [clearTyping_eq_of_none hl] at ht
    obtain ⟨e, he, _⟩ := h.1 t ht
    rw [hkey, hl] at he
    cases he
  | some e =>
    rw [clearTyping_eq_of_lookup hl] at ht
    have ht1 : t ∈ st.timers.filter (fun t => decide (t.id ≠ e.timeout)) := ht
    have ht2 : t ∈ st.timers := List.mem_of_mem_filter ht1
    have hid := List.of_mem_filter ht1
    simp only [decide_eq_true_eq] at hid
    obtain ⟨e1, he1, hto⟩ := h.1 t ht2
    rw [hkey, hl] at he1
    injection he1 with he1
    rw [← he1] at hto
    exact hid hto.symm

theorem clearTyping_inv {st : ServerState} (cid uid : Option String)
    (h : TypingInv st) : TypingInv (clearTypingTimeout st cid uid) := by
  cases hl : mapGet st.typingUsers (typingKey cid uid) with
  | none => rw [clearTyping_eq_of_none hl]; exact h
  | some e =>
    rw [clearTyping_eq_of_lookup hl]
    obtain ⟨ha, hb, hc, hd⟩ := h
    refine ⟨?_, ?_, ?_, ?_⟩
    · intro t ht
      have ht1 : t ∈ st.timers.filter (fun t => decide (t.id ≠ e.timeout)) := ht
      have ht2 : t ∈ st.timers := List.mem_of_mem_filter ht1
      have hid := List.of_mem_filter ht1
      simp only [decide_eq_true_eq] at hid
      obtain ⟨e1, he1, hto⟩ := ha t ht2
      by_cases hk : t.key = typingKey cid uid
      · rw [hk, hl] at he1
        injection he1 with he1
        rw [← he1] at hto
        exact (hid hto.symm).elim
      · refine ⟨e1, ?_, hto⟩
        show mapGet (mapDelete st.typingUsers (typingKey cid uid)) t.key = some e1
        rw [mapGet_mapDelete_ne _ hk]
        exact he1
    · exact ((List.filter_sublist st.timers).map Timer.id).nodup hb
    · intro t ht
      have ht1 : t ∈ st.timers.filter (fun t => decide (t.id ≠ e.timeout)) := ht
      exact hc t (List.mem_of_mem_filter ht1)
    · exact keysNodup_mapDelete _ hd

theorem typingInv_of_fields {a b : ServerState} (ht : b.timers = a.timers)
    (hty : b.typingUsers = a.typingUsers) (hn : b.nextTimerId = a.nextTimerId)
    (h : TypingInv a) : TypingInv b := by
  obtain ⟨ha, hb, hc, hd⟩ := h
  refine ⟨?_, ?_, ?_, ?_⟩
  · intro t hmem
    rw [ht] at hmem
    rw [hty]
    exact ha t hmem
  · rw [ht]; exact hb
  · intro t hmem
    rw [ht] at hmem
    rw [hn]
    exact hc t hmem
  · rw [hty]; exact hd

theorem handleTyping_eq {st : ServerState} {sock : String} {d : TypingData}
    (hu : truthyS d.userId = true) (hc : truthyS d.conversationId = true) :
    handleTyping st sock d =
      ({ clearTypingTimeout st d.conversationId d.userId with
          timers := (clearTypingTimeout st d.conversationId d.userId).timers ++
            [⟨st.nextTimerId, typingKey d.conversationId d.userId,
              interp d.conversationId, interp d.userId⟩],
          nextTimerId := st.nextTimerId + 1,
          typingUsers := mapSet
            (clearTypingTimeout st d.conversationId d.userId).typingUsers
            (typingKey d.conversationId d.userId)
            ⟨st.nextTimerId, d.userName⟩ },
       [⟨Target.roomExceptSender ("conversation:" ++ interp d.conversationId) sock,
         "userTyping", Payload.typingData d⟩]) := by
  unfold handleTyping
  simp only [hu, hc, Bool.and_self, if_true]
  rw [clearTyping_nextTimerId]

theorem handleTyping_inv (st : ServerState) (sock : String) (d : TypingData)
    (h : TypingInv st) : TypingInv (handleTyping st sock d).1 := by
  by_cases hcond : (truthyS d.userId && truthyS d.conversationId) = true
  · have h12 : truthyS d.userId = true ∧ truthyS d.conversationId = true := by
      simpa [Bool.and_eq_true] using hcond
    obtain ⟨hu, hc⟩ := h12
    rw [handleTyping_eq hu hc]
    obtain ⟨ha, hb, hc2, hd⟩ := clearTyping_inv d.conversationId d.userId h
    have hnext : (clearTypingTimeout st d.conversationId d.userId).nextTimerId =
        st.nextTimerId := clearTyping_nextTimerId st d.conversationId d.userId
    refine ⟨?_, ?_, ?_, ?_⟩
    · intro t ht
      rcases List.mem_append.mp ht with h1 | h1
      · have hkey : t.key ≠ typingKey d.conversationId d.userId :=
          clearTyping_no_key_timer d.conversationId d.userId h t h1
        obtain ⟨e1, he1, hto⟩ := ha t h1
        refine ⟨e1, ?_, hto⟩
        show mapGet (mapSet _ (typingKey d.conversationId d.userId) _) t.key = some e1
        rw [mapGet_mapSet_ne _ _ hkey]
        exact he1
      · simp only [List.mem_singleton] at h1
        rw [h1]
        exact ⟨⟨st.nextTimerId, d.userName⟩, mapGet_mapSet_self _ _ _, rfl⟩
    · show ((_ ++ [_]).map Timer.id).Nodup
      rw [List.map_append, List.nodup_append]
      refine ⟨hb, List.nodup_singleton _, ?_⟩
      intro x hx hx2
      rcases List.mem_map.mp hx with ⟨t, htm, htid⟩
      have hlt2 := hc2 t htm
      rw [hnext] at hlt2
      simp only [List.map_cons, List.map_nil, List.mem_singleton] at hx2
      rw [htid] at hlt2
      rw [hx2] at hlt2
      exact absurd hlt2 (Nat.lt_irrefl _)
    · intro t ht
      rcases List.mem_append.mp ht with h1 | h1
      · have := hc2 t h1
        rw [hnext] at this
        show t.id < st.nextTimerId + 1
        exact Nat.lt_succ_of_lt this
      · simp only [List.mem_singleton] at h1
        rw [h1]
        exact Nat.lt_succ_self _
    · exact keysNodup_mapSet _ _ hd
  · have : handleTyping st sock d = (st, []) := by
      unfold handleTyping
      simp [hcond]
    rw [this]
    exact h

theorem fireTimer_inv (st : ServerState) (tid : Nat) (h : TypingInv st) :
    TypingInv (fireTimer st tid).1 := by
  unfold fireTimer
  cases hf : st.timers.find? (fun t => t.id = tid) with
  | none => exact h
  | some t0 =>
    have ht0mem : t0 ∈ st.timers := List.mem_of_find?_eq_some hf
    have ht0id : t0.id = tid := by
      have := List.find?_some hf
      simpa using this
    obtain ⟨ha, hb, hc, hd⟩ := h
    refine ⟨?_, ?_, ?_, ?_⟩
    · intro t ht
      have ht1 : t ∈ st.timers.filter (fun t1 => decide (t1.id ≠ tid)) := ht
      have ht2 : t ∈ st.timers := List.mem_of_mem_filter ht1
      have hid := List.of_mem_filter ht1
      simp only [decide_eq_true_eq] at hid
      obtain ⟨e1, he1, hto⟩ := ha t ht2
      by_cases hk : t.key = t0.key
      · obtain ⟨e0, he0, hto0⟩ := ha t0 ht0mem
        rw [hk] at he1
        rw [he0] at he1
        injection he1 with he1
        rw [← he1] at hto
        rw [hto0] at hto
        rw [ht0id] at hto
        exact (hid hto.symm).elim
      · refine ⟨e1, ?_, hto⟩
        show mapGet (mapDelete st.typingUsers t0.key) t.key = some e1
        rw [mapGet_mapDelete_ne _ hk]
        exact he1
    · exact ((List.filter_sublist st.timers).map Timer.id).nodup hb
    · intro t ht
      have ht1 : t ∈ st.timers.filter (fun t1 => decide (t1.id ≠ tid)) := ht
      exact hc t (List.mem_of_mem_filter ht1)
    · exact keysNodup_mapDelete _ hd

theorem typingStep_inv (u : String) (acc : ServerState × List Emit)
    (q : String × TypingEntry) (h : TypingInv acc.1)
    (hq : mapGet acc.1.typingUsers q.1 = some q.2 ∨
      mapGet acc.1.typingUsers q.1 = none) :
    TypingInv (typingCleanupStep u acc q).1 := by
  unfold typingCleanupStep
  by_cases hend : jsEndsWith q.1 (":" ++ u)
  · simp only [hend, if_true]
    obtain ⟨ha, hb, hc, hd⟩ := h
    refine ⟨?_, ?_, ?_, ?_⟩
    · intro t ht
      have ht1 : t ∈ acc.1.timers.filter (fun t1 => decide (t1.id ≠ q.2.timeout)) := ht
      have ht2 : t ∈ acc.1.timers := List.mem_of_mem_filter ht1
      have hid := List.of_mem_filter ht1
      simp only [decide_eq_true_eq] at hid
      obtain ⟨e1, he1, hto⟩ := ha t ht2
      by_cases hk : t.key = q.1
      · rw [hk] at he1
        rcases hq with hq | hq
        · rw [hq] at he1
          injection he1 with he1
          rw [← he1] at hto
          exact (hid hto.symm).elim
        · rw [hq] at he1
          cases he1
      · refine ⟨e1, ?_, hto⟩
        show mapGet (mapDelete acc.1.typingUsers q.1) t.key = some e1
        rw [mapGet_mapDelete_ne _ hk]
        exact he1
    · exact ((List.filter_sublist acc.1.timers).map Timer.id).nodup hb
    · intro t ht
      have ht1 : t ∈ acc.1.timers.filter (fun t1 => decide (t1.id ≠ q.2.timeout)) := ht
      exact hc t (List.mem_of_mem_filter ht1)
    · exact keysNodup_mapDelete _ hd
  · simp only [hend, if_false]
    exact h

theorem typingStep_lookup (u : String) (acc : ServerState × List Emit)
    (q : String × TypingEntry) (k : String) :
    mapGet (typingCleanupStep u acc q).1.typingUsers k =
      mapGet acc.1.typingUsers k ∨
    mapGet (typingCleanupStep u acc q).1.typingUsers k = none := by
  unfold typingCleanupStep
  by_cases hend : jsEndsWith q.1 (":" ++ u)
  · simp only [hend, if_true]
    by_cases hk : k = q.1
    · right
      show mapGet (mapDelete acc.1.typingUsers q.1) k = none
      rw [hk]
      exact mapGet_mapDelete_self _ _
    · left
      show mapGet (mapDelete acc.1.typingUsers q.1) k = _
      exact mapGet_mapDelete_ne _ hk
  · simp only [hend, if_false]
    exact Or.inl rfl

theorem typingFold_inv (u : String) (l : List (String × TypingEntry)) :
    ∀ (acc : ServerState × List Emit), TypingInv acc.1 →
    (∀ q ∈ l, mapGet acc.1.typingUsers q.1 = some q.2 ∨
      mapGet acc.1.typingUsers q.1 = none) →
    TypingInv (l.foldl (typingCleanupStep u) acc).1 := by
  induction l with
  | nil => intro acc h _; simpa using h
  | cons q rest ih =>
    intro acc h hq
    rw [List.foldl_cons]
    apply ih (typingCleanupStep u acc q)
    · exact typingStep_inv u acc q h (hq q (List.mem_cons_self _ _))
    · intro q1 hq1
      rcases typingStep_lookup u acc q q1.1 with h2 | h2
      · rw [h2]
        exact hq q1 (List.mem_cons_of_mem _ hq1)
      · exact Or.inr h2

theorem regPart_typingInv (st : ServerState) (sock u0 : String) (h : TypingInv st) :
    TypingInv (disconnectRegistryPart st sock u0).1 := by
  unfold disconnectRegistryPart
  cases hm : mapGet st.onlineUsers u0 with
  | none => exact h
  | some sockets =>
    by_cases hlen : (setDelete sockets sock).length = 0
    · simp only [hlen, if_true]
      have hA : TypingInv { st with onlineUsers := mapDelete st.onlineUsers u0 } :=
        typingInv_of_fields rfl rfl rfl h
      unfold disconnectTypingCleanup
      apply typingFold_inv
      · exact hA
      · intro q hq
        left
        exact mapGet_of_mem_nodup hA.2.2.2 hq
    · simp only [hlen, if_false]
      exact typingInv_of_fields rfl rfl rfl h

theorem typingInv_step (st : ServerState) (a : Action) (h : TypingInv st) :
    TypingInv (step st a).1 := by
  cases a with
  | connect s au =>
    show TypingInv (handleConnect st s au).1
    unfold handleConnect
    by_cases ht : truthyS au = true
    · simp only [ht, if_true]
      exact typingInv_of_fields rfl rfl rfl h
    · simp only [ht]
      simp only [Bool.false_eq_true, if_false]
      exact h
  | getOnlineUsers s => exact h
  | joinConversation s c =>
    exact typingInv_of_fields rfl rfl rfl h
  | leaveConversation s au c =>
    show TypingInv (handleLeaveConversation st s au c).1
    unfold handleLeaveConversation
    by_cases ht : truthyS au = true
    · simp only [ht, if_true]
      exact clearTyping_inv c au (typingInv_of_fields rfl rfl rfl h)
    · simp only [ht]
      simp only [Bool.false_eq_true, if_false]
      exact typingInv_of_fields rfl rfl rfl h
  | sendMessage s au d =>
    show TypingInv (handleSendMessage st s au d).1
    unfold handleSendMessage
    dsimp only
    by_cases ht : truthyS au = true
    · simp only [ht, if_true]
      exact clearTyping_inv d.conversationId au h
    · simp only [ht]
      simp only [Bool.false_eq_true, if_false]
      exact h
  | typing s d => exact handleTyping_inv st s d h
  | stopTyping s d =>
    show TypingInv (handleStopTyping st s d).1
    unfold handleStopTyping
    by_cases ht : (truthyS d.userId && truthyS d.conversationId) = true
    · simp only [ht, if_true]
      exact clearTyping_inv d.conversationId d.userId h
    · simp only [ht]
      simp only [Bool.false_eq_true, if_false]
      exact h
  | conversationUpdate d => exact h
  | joinLocationChat s d =>
    show TypingInv (handleJoinLocationChat st s d).1
    unfold handleJoinLocationChat addUserToLocationRoom
    by_cases ht : truthyS d.countryCode = true
    · simp only [ht, if_true]
      exact typingInv_of_fields rfl rfl rfl h
    · simp only [ht]
      simp only [Bool.false_eq_true, if_false]
      exact h
  | leaveLocationChat s cc uid =>
    show TypingInv (handleLeaveLocationChat st s cc uid).1
    unfold handleLeaveLocationChat removeUserFromLocationRoom
    by_cases ht : truthyS cc = true
    · simp only [ht, if_true]
      exact typingInv_of_fields rfl rfl rfl h
    · simp only [ht]
      simp only [Bool.false_eq_true, if_false]
      exact h
  | getLocationRoomUsers s cc =>
    show TypingInv (handleGetLocationRoomUsers st s cc).1
    unfold handleGetLocationRoomUsers
    by_cases ht : truthyS cc = true
    · simp only [ht, if_true]
      exact h
    · simp only [ht]
      simp only [Bool.false_eq_true, if_false]
      exact h
  | sendLocationMessage cc msg =>
    show TypingInv (handleSendLocationMessage st cc msg).1
    unfold handleSendLocationMessage
    by_cases ht : (truthyS cc && truthyS msg) = true
    · simp only [ht, if_true]
      exact h
    · simp only [ht]
      simp only [Bool.false_eq_true, if_false]
      exact h
  | locationChatTyping s cc uid un =>
    show TypingInv (handleLocationChatTyping st s cc uid un).1
    unfold handleLocationChatTyping
    by_cases ht : (truthyS cc && truthyS uid) = true
    · simp only [ht, if_true]
      exact h
    · simp only [ht]
      simp only [Bool.false_eq_true, if_false]
      exact h
  | locationChatStopTyping s cc uid =>
    show TypingInv (handleLocationChatStopTyping st s cc uid).1
    unfold handleLocationChatStopTyping
    by_cases ht : (truthyS cc && truthyS uid) = true
    · simp only [ht, if_true]
      exact h
    · simp only [ht]
      simp only [Bool.false_eq_true, if_false]
      exact h
  | disconnect s au =>
    show TypingInv (handleDisconnect st s au).1
    unfold handleDisconnect
    by_cases ht : truthyS au = true
    · simp only [ht, if_true]
      have h1 := regPart_typingInv st s (interp au) h
      have h2 : TypingInv (disconnectLocationCleanup
          (disconnectRegistryPart st s (interp au)).1 s (interp au)).1 := by
        unfold disconnectLocationCleanup
        cases hsr : mapGet (disconnectRegistryPart st s
            (interp au)).1.socketLocationRooms s with
        | none => exact h1
        | some rooms =>
          obtain ⟨_, a2, _, _, a5, a6⟩ := locFold_proj (interp au) rooms
            ((disconnectRegistryPart st s (interp au)).1, [])
          exact typingInv_of_fields (by simpa using a5) (by simpa using a2)
            (by simpa using a6) h1
      exact typingInv_of_fields rfl rfl rfl h2
    · simp only [ht]
      simp only [Bool.false_eq_true, if_false]
      exact typingInv_of_fields rfl rfl rfl h
  | timerFire tid => exact fireTimer_inv st tid h

theorem typingInv_run (acts : List Action) :
    ∀ (st : ServerState), TypingInv st → TypingInv (run st acts).1 := by
  induction acts with
  | nil => intro st h; exact h
  | cons a rest ih =>
    intro st h
    exact ih (step st a).1 (typingInv_step st a h)

theorem typingInv_initState : TypingInv initState := by
  refine ⟨?_, ?_, ?_, ?_⟩ <;> simp [initState]

theorem typingInv_reachable {st : ServerState} (h : Reachable st) : TypingInv st := by
  obtain ⟨acts, hacts⟩ := h
  rw [← hacts]
  exact typingInv_run acts initState typingInv_initState

theorem length_le_one_of_const_id (c : Nat) :
    ∀ (xs : List Timer), (xs.map Timer.id).Nodup → (∀ t ∈ xs, t.id = c) →
    xs.length ≤ 1 := by
  intro xs
  cases xs with
  | nil => intro _ _; simp
  | cons t rest =>
    intro hnd hall
    cases rest with
    | nil => simp
    | cons t2 rest2 =>
      exfalso
      simp only [List.map_cons, List.nodup_cons, List.mem_cons, List.mem_map] at hnd
      have h1 : t.id = c := hall t (by simp)
      have h2 : t2.id = c := hall t2 (by simp)
      exact hnd.1 (Or.inl (by rw [h1, h2]))

/-- In any state satisfying the typing invariant, at most one live timer
exists per typing key. -/
theorem atMostOne_of_typingInv {st : ServerState} (h : TypingInv st) (key : String) :
    (liveTimersFor st key).length ≤ 1 := by
  cases hl : liveTimersFor st key with
  | nil => simp
  | cons t0 rest =>
    have ht0 : t0 ∈ liveTimersFor st key := by rw [hl]; simp
    have ht0f : t0 ∈ st.timers.filter (fun t => decide (t.key = key)) := ht0
    have ht0m : t0 ∈ st.timers := List.mem_of_mem_filter ht0f
    have ht0k := List.of_mem_filter ht0f
    simp only [decide_eq_true_eq] at ht0k
    obtain ⟨e0, he0, hto0⟩ := h.1 t0 ht0m
    rw [← hl]
    apply length_le_one_of_const_id e0.timeout
    · exact ((List.filter_sublist st.timers).map Timer.id).nodup h.2.1
    · intro t htmem
      have htf : t ∈ st.timers.filter (fun t1 => decide (t1.key = key)) := htmem
      have htm : t ∈ st.timers := List.mem_of_mem_filter htf
      have htk := List.of_mem_filter htf
      simp only [decide_eq_true_eq] at htk
      obtain ⟨e1, he1, hto1⟩ := h.1 t htm
      rw [htk] at he1
      rw [ht0k] at he0
      rw [he0] at he1
      injection he1 with he1
      rw [← he1] at hto1
      exact hto1.symm

theorem find?_append_singleton {α : Type _} {p : α → Bool} {l : List α} {x : α}
    (hl : ∀ a ∈ l, p a = false) (hx : p x = true) :
    (l ++ [x]).find? p = some x := by
  induction l with
  | nil => simp [List.find?, hx]
  | cons a rest ih =>
    have ha : p a = false := hl a (List.mem_cons_self _ _)
    simp only [List.cons_append, List.find?, ha]
    exact ih (fun b hb => hl b (List.mem_cons_of_mem _ hb))

/-- Two consecutive 'typing' signals whose keys coincide: the first signal's
timer is cancelled by the second, exactly one live timer remains for the
key, the cancelled timer can never fire, and firing the surviving timer
emits exactly one 'userStopTyping' and leaves no live timer for the key. -/
theorem typing_twice_core (st : ServerState) (hinv : TypingInv st)
    (sock1 sock2 : String) (d1 d2 : TypingData)
    (h1u : truthyS d1.userId = true) (h1c : truthyS d1.conversationId = true)
    (h2u : truthyS d2.userId = true) (h2c : truthyS d2.conversationId = true)
    (hkey : typingKey d2.conversationId d2.userId =
      typingKey d1.conversationId d1.userId) :
    liveTimersFor (handleTyping (handleTyping st sock1 d1).1 sock2 d2).1
        (typingKey d1.conversationId d1.userId) =
      [⟨st.nextTimerId + 1, typingKey d2.conversationId d2.userId,
        interp d2.conversationId, interp d2.userId⟩] ∧
    mapGet (handleTyping (handleTyping st sock1 d1).1 sock2 d2).1.typingUsers
        (typingKey d1.conversationId d1.userId) =
      some ⟨st.nextTimerId + 1, d2.userName⟩ ∧
    (fireTimer (handleTyping (handleTyping st sock1 d1).1 sock2 d2).1
        st.nextTimerId).2 = [] ∧
    (fireTimer (handleTyping (handleTyping st sock1 d1).1 sock2 d2).1
        (st.nextTimerId + 1)).2 =
      [⟨Target.room ("conversation:" ++ interp d2.conversationId), "userStopTyping",
        Payload.stopTyping (some (interp d2.userId)) (some (interp d2.conversationId))⟩] ∧
    liveTimersFor (fireTimer (handleTyping (handleTyping st sock1 d1).1 sock2 d2).1
        (st.nextTimerId + 1)).1 (typingKey d1.conversationId d1.userId) = [] := by
  have hC1inv := clearTyping_inv d1.conversationId d1.userId hinv
  have hC1key := clearTyping_no_key_timer d1.conversationId d1.userId hinv
  have hC1next := clearTyping_nextTimerId st d1.conversationId d1.userId
  have hC1lt : ∀ t ∈ (clearTypingTimeout st d1.conversationId d1.userId).timers,
      t.id < st.nextTimerId := by
    intro t ht
    have h2 := hC1inv.2.2.1 t ht
    rwa [hC1next] at h2
  have hstA : (handleTyping st sock1 d1).1 =
      { clearTypingTimeout st d1.conversationId d1.userId with
        timers := (clearTypingTimeout st d1.conversationId d1.userId).timers ++
          [⟨st.nextTimerId, typingKey d1.conversationId d1.userId,
            interp d1.conversationId, interp d1.userId⟩],
        nextTimerId := st.nextTimerId + 1,
        typingUsers := mapSet
          (clearTypingTimeout st d1.conversationId d1.userId).typingUsers
          (typingKey d1.conversationId d1.userId)
          ⟨st.nextTimerId, d1.userName⟩ } := by
    rw [@handleTyping_eq st sock1 d1 h1u h1c]
  have hstAtimers : (handleTyping st sock1 d1).1.timers =
      (clearTypingTimeout st d1.conversationId d1.userId).timers ++
        [⟨st.nextTimerId, typingKey d1.conversationId d1.userId,
          interp d1.conversationId, interp d1.userId⟩] := by
    rw [hstA]
  have hnextA : (handleTyping st sock1 d1).1.nextTimerId = st.nextTimerId + 1 := by
    rw [hstA]
  have hlook : mapGet (handleTyping st sock1 d1).1.typingUsers
      (typingKey d2.conversationId d2.userId) =
      some ⟨st.nextTimerId, d1.userName⟩ := by
    rw [hstA, hkey]
    exact mapGet_mapSet_self _ _ _
  have hC2 := clearTyping_eq_of_lookup hlook
  have hC2timers : (clearTypingTimeout (handleTyping st sock1 d1).1
      d2.conversationId d2.userId).timers =
      (clearTypingTimeout st d1.conversationId d1.userId).timers := by
    rw [hC2]
    show (handleTyping st sock1 d1).1.timers.filter
      (fun t => decide (t.id ≠ (⟨st.nextTimerId, d1.userName⟩ : TypingEntry).timeout)) = _
    rw [hstAtimers, List.filter_append]
    have h1 : (clearTypingTimeout st d1.conversationId d1.userId).timers.filter
        (fun t => decide (t.id ≠ (⟨st.nextTimerId, d1.userName⟩ : TypingEntry).timeout)) =
        (clearTypingTimeout st d1.conversationId d1.userId).timers := by
      rw [List.filter_eq_self]
      intro t ht
      simp only [decide_eq_true_eq]
      exact Nat.ne_of_lt (hC1lt t ht)
    rw [h1]
    simp
  have hC2ty : (clearTypingTimeout (handleTyping st sock1 d1).1
      d2.conversationId d2.userId).typingUsers =
      mapDelete (handleTyping st sock1 d1).1.typingUsers
        (typingKey d2.conversationId d2.userId) := by
    rw [hC2]
  have hstB : (handleTyping (handleTyping st sock1 d1).1 sock2 d2).1 =
      { clearTypingTimeout (handleTyping st sock1 d1).1 d2.conversationId d2.userId with
        timers := (clearTypingTimeout (handleTyping st sock1 d1).1
          d2.conversationId d2.userId).timers ++
          [⟨(handleTyping st sock1 d1).1.nextTimerId,
            typingKey d2.conversationId d2.userId,
            interp d2.conversationId, interp d2.userId⟩],
        nextTimerId := (handleTyping st sock1 d1).1.nextTimerId + 1,
        typingUsers := mapSet
          (clearTypingTimeout (handleTyping st sock1 d1).1
            d2.conversationId d2.userId).typingUsers
          (typingKey d2.conversationId d2.userId)
          ⟨(handleTyping st sock1 d1).1.nextTimerId, d2.userName⟩ } := by
    rw [@handleTyping_eq (handleTyping st sock1 d1).1 sock2 d2 h2u h2c]
  have hstBtimers : (handleTyping (handleTyping st sock1 d1).1 sock2 d2).1.timers =
      (clearTypingTimeout st d1.conversationId d1.userId).timers ++
        [⟨st.nextTimerId + 1, typingKey d2.conversationId d2.userId,
          interp d2.conversationId, interp d2.userId⟩] := by
    rw [hstB]
    show (clearTypingTimeout (handleTyping st sock1 d1).1
        d2.conversationId d2.userId).timers ++
        [⟨(handleTyping st sock1 d1).1.nextTimerId,
          typingKey d2.conversationId d2.userId,
          interp d2.conversationId, interp d2.userId⟩] = _
    rw [hC2timers, hnextA]
  have hstBty : (handleTyping (handleTyping st sock1 d1).1 sock2 d2).1.typingUsers =
      mapSet (mapDelete (handleTyping st sock1 d1).1.typingUsers
        (typingKey d2.conversationId d2.userId))
        (typingKey d2.conversationId d2.userId)
        ⟨st.nextTimerId + 1, d2.userName⟩ := by
    rw [hstB]
    show mapSet (clearTypingTimeout (handleTyping st sock1 d1).1
        d2.conversationId d2.userId).typingUsers
        (typingKey d2.conversationId d2.userId)
        ⟨(handleTyping st sock1 d1).1.nextTimerId, d2.userName⟩ = _
    rw [hC2ty, hnextA]
  refine ⟨?_, ?_, ?_, ?_, ?_⟩
  · show (handleTyping (handleTyping st sock1 d1).1 sock2 d2).1.timers.filter
      (fun t => decide (t.key = typingKey d1.conversationId d1.userId)) = _
    rw [hstBtimers, List.filter_append]
    have h1 : (clearTypingTimeout st d1.conversationId d1.userId).timers.filter
        (fun t => decide (t.key = typingKey d1.conversationId d1.userId)) = [] := by
      rw [List.filter_eq_nil]
      intro t ht
      simp only [decide_eq_true_eq]
      exact hC1key t ht
    rw [h1]
    simp [hkey]
  · rw [hstBty, hkey]
    exact mapGet_mapSet_self _ _ _
  · unfold fireTimer
    have hfind : (handleTyping (handleTyping st sock1 d1).1 sock2
        d2).1.timers.find? (fun t => t.id = st.nextTimerId) = none := by
      rw [List.find?_eq_none]
      intro t ht
      rw [hstBtimers] at ht
      rcases List.mem_append.mp ht with h1 | h1
      · simp only [decide_eq_true_eq]
        exact Nat.ne_of_lt (hC1lt t h1)
      · simp only [List.mem_singleton] at h1
        rw [h1]
        simp
    rw [hfind]
  · unfold fireTimer
    have hfind : (handleTyping (handleTyping st sock1 d1).1 sock2
        d2).1.timers.find? (fun t => t.id = st.nextTimerId + 1) =
        some ⟨st.nextTimerId + 1, typingKey d2.conversationId d2.userId,
          interp d2.conversationId, interp d2.userId⟩ := by
      rw [hstBtimers]
      apply find?_append_singleton
      · intro t ht
        simp only [decide_eq_false_iff_not]
        exact Nat.ne_of_lt (Nat.lt_succ_of_lt (hC1lt t ht))
      · simp
    rw [hfind]
  · unfold fireTimer
    have hfind : (handleTyping (handleTyping st sock1 d1).1 sock2
        d2).1.timers.find? (fun t => t.id = st.nextTimerId + 1) =
        some ⟨st.nextTimerId + 1, typingKey d2.conversationId d2.userId,
          interp d2.conversationId, interp d2.userId⟩ := by
      rw [hstBtimers]
      apply find?_append_singleton
      · intro t ht
        simp only [decide_eq_false_iff_not]
        exact Nat.ne_of_lt (Nat.lt_succ_of_lt (hC1lt t ht))
      · simp
    rw [hfind]
    show ((handleTyping (handleTyping st sock1 d1).1 sock2 d2).1.timers.filter
        (fun t1 => decide (t1.id ≠ st.nextTimerId + 1))).filter
        (fun t => decide (t.key = typingKey d1.conversationId d1.userId)) = []
    rw [hstBtimers, List.filter_append]
    have h1 : (clearTypingTimeout st d1.conversationId d1.userId).timers.filter
        (fun t1 => decide (t1.id ≠ st.nextTimerId + 1)) =
        (clearTypingTimeout st d1.conversationId d1.userId).timers := by
      rw [List.filter_eq_self]
      intro t ht
      simp only [decide_eq_true_eq]
      exact Nat.ne_of_lt (Nat.lt_succ_of_lt (hC1lt t ht))
    rw [h1]
    have h2 : ([⟨st.nextTimerId + 1, typingKey d2.conversationId d2.userId,
        interp d2.conversationId, interp d2.userId⟩] : List Timer).filter
        (fun t1 => decide (t1.id ≠ st.nextTimerId + 1)) = [] := by
      simp
    rw [h2, List.append_nil, List.filter_eq_nil]
    intro t ht
    simp only [decide_eq_true_eq]
    exact hC1key t ht

/-! ### C4: at most one live typing timer per key -/

/-- C4.  In every reachable server state, at most one pending typing-expiry
timer is live for any (conversation, user) key; and after two 'typing'
signals for the same key in quick succession (the second arriving before
the first timer fires), exactly one timer is live, the cancelled first
timer fires nothing, and the surviving timer's expiry emits exactly one
'userStopTyping' to the conversation room and leaves no live timer for the
key — one eventual stop-typing emission, not two. -/
theorem typing_timer_unique_per_key (st : ServerState) (h : Reachable st) :
    (∀ key, (liveTimersFor st key).length ≤ 1) ∧
    (∀ (sock1 sock2 : String) (d : TypingData),
      truthyS d.userId = true → truthyS d.conversationId = true →
      liveTimersFor (handleTyping (handleTyping st sock1 d).1 sock2 d).1
          (typingKey d.conversationId d.userId) =
        [⟨st.nextTimerId + 1, typingKey d.conversationId d.userId,
          interp d.conversationId, interp d.userId⟩] ∧
      (fireTimer (handleTyping (handleTyping st sock1 d).1 sock2 d).1
          st.nextTimerId).2 = [] ∧
      (fireTimer (handleTyping (handleTyping st sock1 d).1 sock2 d).1
          (st.nextTimerId + 1)).2 =
        [⟨Target.room ("conversation:" ++ interp d.conversationId), "userStopTyping",
          Payload.stopTyping (some (interp d.userId))
            (some (interp d.conversationId))⟩] ∧
      liveTimersFor (fireTimer (handleTyping (handleTyping st sock1 d).1 sock2 d).1
          (st.nextTimerId + 1)).1 (typingKey d.conversationId d.userId) = []) := by
  have hinv := typingInv_reachable h
  constructor
  · intro key
    exact atMostOne_of_typingInv hinv key
  · intro sock1 sock2 d hu hc
    obtain ⟨c1, _, c3, c4, c5⟩ := typing_twice_core st hinv sock1 sock2 d d hu hc hu hc rfl
    exact ⟨c1, c3, c4, c5⟩

/-- C4 witness: the double-typing scenario run from the initial state. -/
theorem typing_timer_unique_per_key_witness :
    (∀ key, (liveTimersFor initState key).length ≤ 1) ∧
    (∀ (sock1 sock2 : String) (d : TypingData),
      truthyS d.userId = true → truthyS d.conversationId = true →
      liveTimersFor (handleTyping (handleTyping initState sock1 d).1 sock2 d).1
          (typingKey d.conversationId d.userId) =
        [⟨initState.nextTimerId + 1, typingKey d.conversationId d.userId,
          interp d.conversationId, interp d.userId⟩] ∧
      (fireTimer (handleTyping (handleTyping initState sock1 d).1 sock2 d).1
          initState.nextTimerId).2 = [] ∧
      (fireTimer (handleTyping (handleTyping initState sock1 d).1 sock2 d).1
          (initState.nextTimerId + 1)).2 =
        [⟨Target.room ("conversation:" ++ interp d.conversationId), "userStopTyping",
          Payload.stopTyping (some (interp d.userId))
            (some (interp d.conversationId))⟩] ∧
      liveTimersFor (fireTimer (handleTyping
          (handleTyping initState sock1 d).1 sock2 d).1
          (initState.nextTimerId + 1)).1 (typingKey d.conversationId d.userId) = []) :=
  typing_timer_unique_per_key initState ⟨[], rfl⟩

/-! ### C10: colon-joined typing keys -/

theorem mapDelete_eq_filter {α : Type _} {β : Type _} [DecidableEq α]
    (m : List (α × β)) (k : α) :
    mapDelete m k = m.filter (fun q => !(decide (q.1 = k))) := by
  induction m with
  | nil => rfl
  | cons p rest ih =>
    obtain ⟨k1, v1⟩ := p
    by_cases h : k1 = k
    · simp [mapDelete, h, ih]
    · simp [mapDelete, h, ih]

theorem typingFold_filter (u : String) (l : List (String × TypingEntry)) :
    ∀ (acc : ServerState × List Emit),
    (∀ q ∈ acc.1.typingUsers, jsEndsWith q.1 (":" ++ u) = true →
      q.1 ∈ l.map Prod.fst) →
    (l.foldl (typingCleanupStep u) acc).1.typingUsers =
      acc.1.typingUsers.filter (fun q => !(jsEndsWith q.1 (":" ++ u))) := by
  induction l with
  | nil =>
    intro acc h
    have : acc.1.typingUsers.filter (fun q => !(jsEndsWith q.1 (":" ++ u))) =
        acc.1.typingUsers := by
      rw [List.filter_eq_self]
      intro q hq
      simp only [Bool.not_eq_true']
      cases hE : jsEndsWith q.1 (":" ++ u) with
      | false => rfl
      | true => exact absurd (h q hq hE) (by simp)
    rw [this]
    rfl
  | cons p rest ih =>
    intro acc h
    rw [List.foldl_cons]
    by_cases hend : jsEndsWith p.1 (":" ++ u) = true
    · have hstep : (typingCleanupStep u acc p).1.typingUsers =
          mapDelete acc.1.typingUsers p.1 := by
        unfold typingCleanupStep
        rw [if_pos (by simpa using hend)]
      rw [ih (typingCleanupStep u acc p) ?_]
      · rw [hstep, mapDelete_eq_filter, List.filter_filter]
        apply List.filter_congr
        intro q hq
        by_cases hqp : q.1 = p.1
        · have hqE : jsEndsWith q.1 (":" ++ u) = true := by rw [hqp]; exact hend
          simp [hqE, hqp, hend]
        · cases hE2 : jsEndsWith q.1 (":" ++ u) <;> simp [hE2, hqp]
      · intro q hq hqE
        rw [hstep] at hq
        have hq1 : q ∈ acc.1.typingUsers := mem_of_mem_mapDelete hq
        have hq2 : q.1 ≠ p.1 := key_ne_of_mem_mapDelete hq
        have := h q hq1 hqE
        simp only [List.map_cons, List.mem_cons] at this
        rcases this with h3 | h3
        · exact absurd h3 hq2
        · exact h3
    · have hstep : typingCleanupStep u acc p = acc := by
        unfold typingCleanupStep
        rw [if_neg (by simpa using hend)]
      rw [hstep]
      apply ih
      intro q hq hqE
      have := h q hq hqE
      simp only [List.map_cons, List.mem_cons] at this
      rcases this with h3 | h3
      · rw [h3] at hqE
        exact absurd hqE hend
      · exact h3

theorem typingFold_emits_eq (u : String) (l : List (String × TypingEntry)) :
    ∀ (acc : ServerState × List Emit),
    (l.foldl (typingCleanupStep u) acc).2 =
      acc.2 ++ (l.filter (fun p => jsEndsWith p.1 (":" ++ u))).map
        (fun p => ⟨Target.room ("conversation:" ++ firstSegment p.1), "userStopTyping",
          Payload.stopTyping (some u) (some (firstSegment p.1))⟩) := by
  induction l with
  | nil => intro acc; simp
  | cons p rest ih =>
    intro acc
    rw [List.foldl_cons, List.filter_cons]
    by_cases hend : jsEndsWith p.1 (":" ++ u) = true
    · have hstep2 : (typingCleanupStep u acc p).2 =
          acc.2 ++ [⟨Target.room ("conversation:" ++ firstSegment p.1), "userStopTyping",
            Payload.stopTyping (some u) (some (firstSegment p.1))⟩] := by
        unfold typingCleanupStep
        rw [if_pos (by simpa using hend)]
      rw [ih (typingCleanupStep u acc p), hstep2]
      rw [if_pos hend]
      rw [List.map_cons, List.append_assoc]
      rfl
    · have hstep : typingCleanupStep u acc p = acc := by
        unfold typingCleanupStep
        rw [if_neg (by simpa using hend)]
      rw [hstep, ih acc, if_neg hend]

/-- C10.  Typing entries are keyed by conversationId + ":" + userId, so two
distinct (conversation, user) pairs with the same concatenation share one
entry: a 'typing' signal for one pair cancels the other pair's pending
timer (which can then never fire) and overwrites the shared entry.  On a
user's final disconnect, every entry whose key string merely ends in
":" + userId is removed, and 'userStopTyping' is emitted with the
conversation id taken as the key segment before the first colon. -/
theorem typing_key_collision_and_sweep :
    (∀ cid uid : String, typingKey (some cid) (some uid) = cid ++ ":" ++ uid) ∧
    (∀ (st : ServerState) (sock1 sock2 : String) (d1 d2 : TypingData),
      Reachable st →
      truthyS d1.userId = true → truthyS d1.conversationId = true →
      truthyS d2.userId = true → truthyS d2.conversationId = true →
      typingKey d2.conversationId d2.userId = typingKey d1.conversationId d1.userId →
      liveTimersFor (handleTyping (handleTyping st sock1 d1).1 sock2 d2).1
          (typingKey d1.conversationId d1.userId) =
        [⟨st.nextTimerId + 1, typingKey d2.conversationId d2.userId,
          interp d2.conversationId, interp d2.userId⟩] ∧
      mapGet (handleTyping (handleTyping st sock1 d1).1 sock2 d2).1.typingUsers
          (typingKey d1.conversationId d1.userId) =
        some ⟨st.nextTimerId + 1, d2.userName⟩ ∧
      (fireTimer (handleTyping (handleTyping st sock1 d1).1 sock2 d2).1
          st.nextTimerId).2 = []) ∧
    (∀ (st : ServerState) (sock u : String) (sockets : List String),
      u ≠ "" → mapGet st.onlineUsers u = some sockets →
      (setDelete sockets sock).length = 0 →
      (handleDisconnect st sock (some u)).1.typingUsers =
        st.typingUsers.filter (fun p => !(jsEndsWith p.1 (":" ++ u))) ∧
      (∀ p ∈ st.typingUsers, jsEndsWith p.1 (":" ++ u) = true →
        (⟨Target.room ("conversation:" ++ firstSegment p.1), "userStopTyping",
          Payload.stopTyping (some u) (some (firstSegment p.1))⟩ : Emit) ∈
          (handleDisconnect st sock (some u)).2)) := by
  refine ⟨fun cid uid => rfl, ?_, ?_⟩
  · intro st sock1 sock2 d1 d2 hreach h1u h1c h2u h2c hkey
    obtain ⟨c1, c2, c3, _, _⟩ := typing_twice_core st (typingInv_reachable hreach)
      sock1 sock2 d1 d2 h1u h1c h2u h2c hkey
    exact ⟨c1, c2, c3⟩
  · intro st sock u sockets hu hm hlen
    have ht : truthyS (some u) = true := by simpa [truthyS] using hu
    have hreg : (disconnectRegistryPart st sock u).1 =
        (disconnectTypingCleanup
          { st with onlineUsers := mapDelete st.onlineUsers u } u).1 := by
      unfold disconnectRegistryPart
      rw [hm]
      simp [hlen]
    have hregtr : (disconnectRegistryPart st sock u).2 =
        ⟨Target.all, "userOffline", Payload.userId u⟩ ::
          (disconnectTypingCleanup
            { st with onlineUsers := mapDelete st.onlineUsers u } u).2 := by
      unfold disconnectRegistryPart
      rw [hm]
      simp [hlen]
    have hcleanty : (disconnectTypingCleanup
        { st with onlineUsers := mapDelete st.onlineUsers u } u).1.typingUsers =
        st.typingUsers.filter (fun p => !(jsEndsWith p.1 (":" ++ u))) := by
      unfold disconnectTypingCleanup
      exact typingFold_filter u _ _ (fun q hq _ => List.mem_map.mpr ⟨q, hq, rfl⟩)
    have hcleantr : (disconnectTypingCleanup
        { st with onlineUsers := mapDelete st.onlineUsers u } u).2 =
        (st.typingUsers.filter (fun p => jsEndsWith p.1 (":" ++ u))).map
          (fun p => ⟨Target.room ("conversation:" ++ firstSegment p.1), "userStopTyping",
            Payload.stopTyping (some u) (some (firstSegment p.1))⟩) := by
      unfold disconnectTypingCleanup
      rw [typingFold_emits_eq]
      simp
    have hpost1 : (handleDisconnect st sock (some u)).1.typingUsers =
        (disconnectLocationCleanup (disconnectRegistryPart st sock u).1 sock
          u).1.typingUsers := by
      unfold handleDisconnect
      simp [ht, interp]
    have hloc : (disconnectLocationCleanup (disconnectRegistryPart st sock u).1 sock
        u).1.typingUsers = (disconnectRegistryPart st sock u).1.typingUsers := by
      unfold disconnectLocationCleanup
      cases hsr : mapGet (disconnectRegistryPart st sock u).1.socketLocationRooms sock with
      | none => rfl
      | some rooms =>
        obtain ⟨_, a2, _, _, _, _⟩ :=
          locFold_proj u rooms ((disconnectRegistryPart st sock u).1, [])
        simpa using a2
    constructor
    · rw [hpost1, hloc, hreg, hcleanty]
    · intro p hp hend
      have htr : (handleDisconnect st sock (some u)).2 =
          (disconnectRegistryPart st sock u).2 ++
          (disconnectLocationCleanup (disconnectRegistryPart st sock u).1 sock u).2 := by
        unfold handleDisconnect
        simp [ht, interp]
      rw [htr, hregtr, hcleantr]
      apply List.mem_append_left
      apply List.mem_cons_of_mem
      apply List.mem_map.mpr
      refine ⟨p, ?_, rfl⟩
      rw [List.mem_filter]
      exact ⟨hp, hend⟩

/-- C10 witness: conversation "a:b" with user "c" and conversation "a" with
user "b:c" collide on the key "a:b:c"; and a user "c" who was typing in
conversation "a:b" gets, on disconnect, a stop-typing emission addressed to
conversation "a". -/
theorem typing_key_collision_and_sweep_witness :
    typingKey (some "a:b") (some "c") = "a:b" ++ ":" ++ "c" ∧
    (liveTimersFor (handleTyping (handleTyping initState "s1"
          ⟨some "c", some "a:b", some "A"⟩).1 "s2"
          ⟨some "b:c", some "a", some "B"⟩).1
        (typingKey (some "a:b") (some "c")) =
      [⟨initState.nextTimerId + 1, typingKey (some "a") (some "b:c"),
        interp (some "a"), interp (some "b:c")⟩] ∧
     mapGet (handleTyping (handleTyping initState "s1"
          ⟨some "c", some "a:b", some "A"⟩).1 "s2"
          ⟨some "b:c", some "a", some "B"⟩).1.typingUsers
        (typingKey (some "a:b") (some "c")) =
      some ⟨initState.nextTimerId + 1, some "B"⟩ ∧
     (fireTimer (handleTyping (handleTyping initState "s1"
          ⟨some "c", some "a:b", some "A"⟩).1 "s2"
          ⟨some "b:c", some "a", some "B"⟩).1 initState.nextTimerId).2 = []) ∧
    ((handleDisconnect (run initState
        [Action.connect "s1" (some "c"),
         Action.typing "s1" ⟨some "c", some "a:b", some "A"⟩]).1
        "s1" (some "c")).1.typingUsers =
      (run initState
        [Action.connect "s1" (some "c"),
         Action.typing "s1" ⟨some "c", some "a:b", some "A"⟩]).1.typingUsers.filter
        (fun p => !(jsEndsWith p.1 (":" ++ "c"))) ∧
     (∀ p ∈ (run initState
        [Action.connect "s1" (some "c"),
         Action.typing "s1" ⟨some "c", some "a:b", some "A"⟩]).1.typingUsers,
       jsEndsWith p.1 (":" ++ "c") = true →
       (⟨Target.room ("conversation:" ++ firstSegment p.1), "userStopTyping",
         Payload.stopTyping (some "c") (some (firstSegment p.1))⟩ : Emit) ∈
         (handleDisconnect (run initState
            [Action.connect "s1" (some "c"),
             Action.typing "s1" ⟨some "c", some "a:b", some "A"⟩]).1
            "s1" (some "c")).2)) :=
  ⟨typing_key_collision_and_sweep.1 "a:b" "c",
   typing_key_collision_and_sweep.2.1 initState "s1" "s2"
     ⟨some "c", some "a:b", some "A"⟩ ⟨some "b:c", some "a", some "B"⟩
     ⟨[], rfl⟩ (by decide) (by decide) (by decide) (by decide) (by decide),
   typing_key_collision_and_sweep.2.2
     (run initState
       [Action.connect "s1" (some "c"),
        Action.typing "s1" ⟨some "c", some "a:b", some "A"⟩]).1
     "s1" "c" ["s1"] (by decide) (by decide) (by decide)⟩

end Vagano
